import Mathlib

/-!
Verification development for the gauntlet-draft Discord bot
(queue / timer engine, bracket engine, notification registry).

The TypeScript source is shallowly embedded:
* spreadsheet data rows become `List String` (the Sheets client is read with
  `UNFORMATTED_VALUE` and every cell is passed through `String(...)`, so a
  numeric cell `n` appears as its decimal rendering);
* the header row (`A1:...1`) is outside the data ranges (`A2:...`) that the
  engine reads and scans, so states model the data region only;
* JavaScript `String.prototype.trim` / `parseInt` are modelled by `jsTrim` /
  `jsParseInt` below;
* `setTimeout` handles become freshly allocated naturals recorded in an
  explicit set of armed timers.
-/

namespace Gauntlet

/-! ### JavaScript string primitives -/

/-- JS whitespace test used by `trim` (ASCII-relevant part). -/
def jsWs (c : Char) : Bool := c.isWhitespace

/-- `String.prototype.trim` on the character list. -/
def trimChars (l : List Char) : List Char :=
  ((l.dropWhile jsWs).reverse.dropWhile jsWs).reverse

/-- `s.trim()` in JS. -/
def jsTrim (s : String) : String := ⟨trimChars s.data⟩

/-- `s.toLowerCase()` (ASCII-relevant behaviour, character-wise). -/
def jsToLower (s : String) : String := ⟨s.data.map Char.toLower⟩

/-- `s.toUpperCase()` (ASCII-relevant behaviour, character-wise). -/
def jsToUpper (s : String) : String := ⟨s.data.map Char.toUpper⟩

/-- Value of a decimal-digit run. -/
def digitsVal (ds : List Char) : Nat :=
  ds.foldl (fun a c => a * 10 + (c.toNat - '0'.toNat)) 0

/-- Leading digit run of a character list, `none` when there is none
(`parseInt` returns `NaN` then). -/
def parseDigits (cs : List Char) : Option Nat :=
  let ds := cs.takeWhile (·.isDigit)
  if ds.isEmpty then none else some (digitsVal ds)

/-- `parseInt(s, 10)`: skip leading whitespace, optional sign, then the
longest digit run; everything after the run is ignored. -/
def jsParseInt (s : String) : Option Int :=
  match s.data.dropWhile jsWs with
  | '-' :: rest => (parseDigits rest).map (fun n => -(n : Int))
  | '+' :: rest => (parseDigits rest).map (fun n => (n : Int))
  | cs => (parseDigits cs).map (fun n => (n : Int))

/-! ### Sheet rows -/

/-- One spreadsheet data row; missing trailing cells are simply absent. -/
abbrev Row := List String

/-- `String(row[i] ?? "")`: reading cell `i` of a row. -/
def cell (row : Row) (i : Nat) : String := row.getD i ""

/-! ### Matchup rows (`src/matchups.ts`)

Columns of the `Matchups` sheet (data range `A2:G`):
`[Draft Name, Round, Match #, Player 1, Player 2, Winner, Match Result]`. -/

/-- Parsed matchup row (`interface MatchupRow` in `src/matchups.ts`). -/
structure MatchupRow where
  draftName : String
  round : Int
  matchNum : Int
  p1 : String
  p2 : String
  winner : String
  result : String
deriving DecidableEq, Repr

/-- `parseMatchupRow`: `null` when the row has fewer than 7 cells or the
round / match numbers do not parse. -/
def parseMatchupRow (row : Row) : Option MatchupRow :=
  if row.length < 7 then none
  else
    match jsParseInt (cell row 1), jsParseInt (cell row 2) with
    | some round, some matchNum =>
        some { draftName := jsTrim (cell row 0)
               round := round
               matchNum := matchNum
               p1 := jsTrim (cell row 3)
               p2 := jsTrim (cell row 4)
               winner := jsTrim (cell row 5)
               result := jsTrim (cell row 6) }
    | _, _ => none

/-- The row-collection loop shared verbatim by `getDraftStatus` and
`createNextRoundIfReady`: parse every row and keep those whose draft name
matches case-insensitively. -/
def matchupRowsFor (values : List Row) (draftName : String) : List MatchupRow :=
  values.filterMap fun v =>
    match parseMatchupRow v with
    | some p => if jsToLower p.draftName == jsToLower draftName then some p else none
    | none => none

/-- `rows.filter((r) => r.round === n)`. -/
def roundRows (rows : List MatchupRow) (n : Int) : List MatchupRow :=
  rows.filter fun r => r.round == n

/-- `rN.length === 4 && rN.every((r) => r.winner !== "")`. -/
def roundCompleteB (rs : List MatchupRow) : Bool :=
  rs.length == 4 && rs.all fun r => r.winner != ""

/-- One entry of a status reply (`interface MatchStatus`). -/
structure MatchStatus where
  matchNum : Int
  p1 : String
  p2 : String
  completed : Bool
  winner : Option String
  result : Option String
deriving DecidableEq, Repr

/-- `r.winner || undefined` and friends. -/
def toMatchStatus (r : MatchupRow) : MatchStatus :=
  { matchNum := r.matchNum
    p1 := r.p1
    p2 := r.p2
    completed := r.winner != ""
    winner := if r.winner = "" then none else some r.winner
    result := if r.result = "" then none else some r.result }

/-- Result type of `getDraftStatus` (the source's `matches` field is called
`matchList` here since `matches` is a Lean keyword). -/
inductive DraftStatusResult where
  | failure (msg : String)
  | complete
  | active (round : Nat) (matchList : List MatchStatus)
deriving DecidableEq, Repr

/-- `getDraftStatus(draftName)` over the stored matchup data rows. -/
def getDraftStatus (values : List Row) (draftName : String) : DraftStatusResult :=
  let rows := matchupRowsFor values draftName
  if rows.isEmpty then
    .failure ("No matchups found for draft `" ++ draftName ++ "`.")
  else
    let r1 := roundRows rows 1
    let r2 := roundRows rows 2
    let r3 := roundRows rows 3
    if roundCompleteB r3 then .complete
    else if roundCompleteB r2 && !r3.isEmpty then .active 3 (r3.map toMatchStatus)
    else if roundCompleteB r1 && !r2.isEmpty then .active 2 (r2.map toMatchStatus)
    else .active 1 (r1.map toMatchStatus)

/-- `getLoser`: the player of the row that is not the recorded winner. -/
def getLoser (row : MatchupRow) : String :=
  if row.winner = row.p1 then row.p2 else row.p1

/-- `buildRound2Rows`: matches 5-8 from round-1 results.  The source indexes
`r1.find(...)!` with a non-null assertion; a missing match number would throw,
which the model reflects as `none`. -/
def buildRound2Rows (draftName : String) (r1 : List MatchupRow) :
    Option (List Row) := do
  let m1 ← r1.find? fun r => r.matchNum == 1
  let m2 ← r1.find? fun r => r.matchNum == 2
  let m3 ← r1.find? fun r => r.matchNum == 3
  let m4 ← r1.find? fun r => r.matchNum == 4
  return [[draftName, "2", "5", m1.winner, m2.winner, "", ""],
          [draftName, "2", "6", m3.winner, m4.winner, "", ""],
          [draftName, "2", "7", getLoser m1, getLoser m2, "", ""],
          [draftName, "2", "8", getLoser m3, getLoser m4, "", ""]]

/-- `buildRound3Rows`: matches 9-12 from round-2 results. -/
def buildRound3Rows (draftName : String) (r2 : List MatchupRow) :
    Option (List Row) := do
  let m5 ← r2.find? fun r => r.matchNum == 5
  let m6 ← r2.find? fun r => r.matchNum == 6
  let m7 ← r2.find? fun r => r.matchNum == 7
  let m8 ← r2.find? fun r => r.matchNum == 8
  return [[draftName, "3", "9", m5.winner, m6.winner, "", ""],
          [draftName, "3", "10", m7.winner, m8.winner, "", ""],
          [draftName, "3", "11", getLoser m5, getLoser m6, "", ""],
          [draftName, "3", "12", getLoser m7, getLoser m8, "", ""]]

/-- `createNextRoundIfReady(draftName, pretend)`: returns whether a round was
created together with the resulting matchup data rows; `none` models the
thrown `TypeError` when a `find(...)!` assertion fails. -/
def createNextRoundIfReady (values : List Row) (draftName : String)
    (pretend : Bool) : Option (Bool × List Row) :=
  let rows := matchupRowsFor values draftName
  let r1 := roundRows rows 1
  let r2 := roundRows rows 2
  let r3 := roundRows rows 3
  if roundCompleteB r1 && r2.isEmpty then
    if pretend then some (true, values)
    else (buildRound2Rows draftName r1).map fun nr => (true, values ++ nr)
  else if roundCompleteB r2 && r3.isEmpty then
    if pretend then some (true, values)
    else (buildRound3Rows draftName r2).map fun nr => (true, values ++ nr)
  else some (false, values)

/-! ### Match reporting (`src/matches.ts`) -/

/-- Durable sheet state touched by `reportMatch`: the `Matchups` data rows and
the `Matches` report-log data rows. -/
structure SheetState where
  matchups : List Row
  matchesLog : List Row
deriving DecidableEq, Repr

/-- Outcome of `reportMatch`; `crashed` models an exception escaping from the
`createNextRoundIfReady` call after the writes happened. -/
inductive ReportOutcome where
  | ok
  | failure (msg : String)
  | crashed
deriving DecidableEq, Repr

/-- The JS `Set` comparison
`pair.size === reported.size && [...pair].every((id) => reported.has(id))`
for `pair = {p1, p2}` and `reported = {a, b}`. -/
def unorderedPairEq (p1 p2 a b : String) : Bool :=
  ((if p1 == p2 then 1 else 2) == (if a == b then 1 else 2 : Nat))
    && (p1 == a || p1 == b) && (p2 == a || p2 == b)

/-- The per-row test of `reportMatch`'s scan loop (rows shorter than 7 cells
are skipped, then draft name, empty winner, and the unordered pair are
checked). -/
def rowMatchesReport (draftName winnerId loserId : String) (row : Row) : Bool :=
  decide (7 ≤ row.length)
    && (jsTrim (cell row 0) == draftName)
    && (jsTrim (cell row 5) == "")
    && unorderedPairEq (jsTrim (cell row 3)) (jsTrim (cell row 4)) winnerId loserId

/-- Index of the first row satisfying `p` (the `for` loop with `break`). -/
def scanRows (p : Row → Bool) : List Row → Option Nat
  | [] => none
  | v :: vs => if p v then some 0 else (scanRows p vs).map (· + 1)

/-- Error message for a self-report. -/
def selfReportMsg : String := "Winner and loser must be different players."

/-- Error message when no open matchup row pairs the two players. -/
def noMatchupMsg : String :=
  "No valid matchup found. Both players must be paired in a matchup for this draft that hasn\x27t been reported yet."

/-- The `sheetsWrite(F{row}:G{row}, [[winnerId, result]])` overwrite of the
winner / result cells of one row. -/
def writeWinner (row : Row) (winnerId result : String) : Row :=
  (row.set 5 winnerId).set 6 result

/-- `reportMatch(draftName, winnerId, loserId, result, pretend)`: validate,
append to the match log, write the winner, then try to create the next
round. -/
def reportMatch (st : SheetState) (draftName winnerId loserId result : String)
    (pretend : Bool) : SheetState × ReportOutcome :=
  if winnerId == loserId then (st, .failure selfReportMsg)
  else
    match scanRows (rowMatchesReport draftName winnerId loserId) st.matchups with
    | none => (st, .failure noMatchupMsg)
    | some i =>
        if pretend then (st, .ok)
        else
          let log' := st.matchesLog ++ [[winnerId, loserId, result, draftName, "Yes"]]
          let m' := st.matchups.set i
            (writeWinner (st.matchups.getD i []) winnerId result)
          match createNextRoundIfReady m' draftName pretend with
          | none => ({ matchups := m', matchesLog := log' }, .crashed)
          | some (_, m'') => ({ matchups := m'', matchesLog := log' }, .ok)

/-! ### Association lists

JS `Map`s preserve insertion order; they are modelled as association lists:
`set` on a present key updates in place, on an absent key appends, `delete`
removes the (unique) entry of that key. -/

/-- `map.get(k)`. -/
def alistGet {α : Type} (l : List (String × α)) (k : String) : Option α :=
  (l.find? fun kv => kv.1 == k).map (·.2)

/-- `map.set(k, v)` for a key already present. -/
def alistSet {α : Type} (l : List (String × α)) (k : String) (v : α) :
    List (String × α) :=
  l.map fun kv => if kv.1 == k then (k, v) else kv

/-- `map.delete(k)` (keys are unique in a `Map`, so filtering is deletion). -/
def alistDel {α : Type} (l : List (String × α)) (k : String) :
    List (String × α) :=
  l.filter fun kv => !(kv.1 == k)

/-! ### Round 1 creation (`shuffleArray`, `createRound1Matchups`) -/

/-- One swap `[result[i], result[j]] = [result[j], result[i]]`. -/
def fyStep (l : List String) (i j : Nat) : List String :=
  (l.set i (l.getD j "")).set j (l.getD i "")

/-- The Fisher-Yates loop, counting `i` down to `1`; `rand i` models the
random draw, reduced mod `i + 1` like `Math.floor(Math.random() * (i + 1))`. -/
def fyLoop (rand : Nat → Nat) (l : List String) : Nat → List String
  | 0 => l
  | k + 1 => fyLoop rand (fyStep l (k + 1) (rand (k + 1) % (k + 2))) k

/-- `shuffleArray(array)`. -/
def shuffleArray (rand : Nat → Nat) (l : List String) : List String :=
  fyLoop rand l (l.length - 1)

/-- `createRound1Matchups` (pretend off): the four rows appended to the
`Matchups` sheet, or nothing when the pod is not exactly 8 ids.  The source's
`for (let i = 0; i < 4; i++)` push loop is unrolled. -/
def createRound1Rows (rand : Nat → Nat) (draftName : String)
    (userIds : List String) : List Row :=
  if userIds.length ≠ 8 then []
  else
    let s := shuffleArray rand userIds
    [[draftName, "1", "1", s.getD 0 "", s.getD 1 "", "", ""],
     [draftName, "1", "2", s.getD 2 "", s.getD 3 "", "", ""],
     [draftName, "1", "3", s.getD 4 "", s.getD 5 "", "", ""],
     [draftName, "1", "4", s.getD 6 "", s.getD 7 "", "", ""]]

/-! ### Draft log (`draft_log.ts`) -/

/-- `draftNameExistsInLog`: scan column C of the `Draft Log` data range for an
exact (case-sensitive) match of the trimmed cell.  The `C2:C` read only
materialises rows that reach column C. -/
def draftNameExistsInLog (log : List Row) (draftName : String) : Bool :=
  log.any fun r => decide (2 < r.length) && (jsTrim (cell r 2) == draftName)

/-- `recordDraftToLog`: one `[Player Name, Discord ID, Draft Name]` row per
pod member; `resolve` stands for the player-directory / Discord name lookup
(an external collaborator). -/
def recordDraftToLog (log : List Row) (resolve : String → String)
    (draftName : String) (userIds : List String) : List Row :=
  log ++ userIds.map fun uid => [resolve uid, uid, draftName]

/-! ### Queue and timer engine (`src/drafts.ts`) -/

/-- `interface PlayerInfo` (the join timestamp is irrelevant to the claims and
omitted); timer ids are naturals handed out by a counter. -/
structure PlayerInfo where
  reminderTimerId : Option Nat
  queueTimeoutTimerId : Option Nat
deriving DecidableEq, Repr

/-- `type DraftState = Map<string, PlayerInfo>`. -/
abbrev DraftState := List (String × PlayerInfo)

/-- The process state the queue engine mutates: the `drafts` map, the set of
armed (not yet fired or cleared) timer handles with its allocation counter,
and the durable sheet data the `!draft` handler writes. -/
structure World where
  drafts : List (String × DraftState)
  armed : List Nat
  nextTimer : Nat
  draftLog : List Row
  matchups : List Row
deriving DecidableEq, Repr

/-- `queueTimeoutHours && queueTimeoutHours >= 1 && queueTimeoutHours <= 12`
(`0` is falsy, so it also fails the test). -/
def validHours : Option Int → Bool
  | some h => decide (1 ≤ h) && decide (h ≤ 12)
  | none => false

/-- `addPlayerToDraft`: membership check, then arm exactly one timer — the
queue-expiry timer when `validHours`, the 1-hour inactivity reminder
otherwise — and insert the participant. -/
def addPlayerToDraft (w : World) (formatAcronym userId : String)
    (queueTimeoutHours : Option Int) : World × Bool :=
  let q := (alistGet w.drafts formatAcronym).getD []
  if (q.find? fun kv => kv.1 == userId).isSome then (w, false)
  else
    let newId := w.nextTimer
    let info : PlayerInfo :=
      if validHours queueTimeoutHours then
        { reminderTimerId := none, queueTimeoutTimerId := some newId }
      else
        { reminderTimerId := some newId, queueTimeoutTimerId := none }
    let q' := q ++ [(userId, info)]
    let drafts' :=
      if (alistGet w.drafts formatAcronym).isSome then
        alistSet w.drafts formatAcronym q'
      else w.drafts ++ [(formatAcronym, q')]
    ({ w with drafts := drafts'
              armed := newId :: w.armed
              nextTimer := w.nextTimer + 1 }, true)

/-- `clearTimeout` on both timer fields of a participant
(`cancelReminderTimer` / `cancelQueueTimeoutTimer`, null-safe). -/
def cancelIds (armed : List Nat) (p : PlayerInfo) : List Nat :=
  armed.filter fun t =>
    !(p.reminderTimerId == some t || p.queueTimeoutTimerId == some t)

/-- `leaveDraft`: cancel the participant's timers, then delete the record. -/
def leaveDraft (w : World) (formatAcronym userId : String) : World × Bool :=
  match alistGet w.drafts formatAcronym with
  | none => (w, false)
  | some q =>
      match q.find? (fun kv => kv.1 == userId) with
      | none => (w, false)
      | some kv =>
          ({ w with drafts := alistSet w.drafts formatAcronym (alistDel q userId)
                    armed := cancelIds w.armed kv.2 }, true)

/-- `closeDraft`: cancel every timer of every remaining participant and
remove the draft. -/
def closeDraft (w : World) (formatAcronym : String) : World :=
  match alistGet w.drafts formatAcronym with
  | none => w
  | some q =>
      { w with armed := q.foldl (fun a kv => cancelIds a kv.2) w.armed
               drafts := alistDel w.drafts formatAcronym }

/-- `getPlayerCount`. -/
def getPlayerCount (w : World) (formatAcronym : String) : Nat :=
  ((alistGet w.drafts formatAcronym).getD []).length

/-- User-visible outcome of the `!draft` command handler. -/
inductive DraftCmdOutcome where
  | usage
  | alreadyIn
  | nameTaken
  | joined (count : Nat)
  | fired
deriving DecidableEq, Repr

/-- The `!draft <name> [hours]` branch of the `MessageCreate` handler
(`src/main.ts`, pretend off): already-in check, durable-log uniqueness check
for a fresh queue, join, and on reaching 8 players record the pod, create
round 1, and close the queue.  DM notifications at 5+ players only touch the
notification registry and the messaging collaborator, neither part of
`World`. -/
def handleDraftCmd (w : World) (resolve : String → String) (rand : Nat → Nat)
    (userId draftName : String) (queueTimeoutHours : Option Int) :
    World × DraftCmdOutcome :=
  if draftName == "" then (w, .usage)
  else
    let existing : Option DraftState := alistGet w.drafts draftName
    let isMember :=
      match existing with
      | some q => (q.find? fun kv : String × PlayerInfo => kv.1 == userId).isSome
      | none => false
    if isMember then (w, .alreadyIn)
    else if existing.isNone && draftNameExistsInLog w.draftLog draftName then
      (w, .nameTaken)
    else
      let w₁ := (addPlayerToDraft w draftName userId queueTimeoutHours).1
      let count := getPlayerCount w₁ draftName
      if count == 8 then
        let userIds : List String :=
          ((alistGet w₁.drafts draftName).getD ([] : DraftState)).map
            (fun kv : String × PlayerInfo => kv.1)
        let w₂ := { w₁ with
          draftLog := recordDraftToLog w₁.draftLog resolve draftName userIds }
        let w₃ := { w₂ with
          matchups := w₂.matchups ++ createRound1Rows rand draftName userIds }
        (closeDraft w₃ draftName, .fired)
      else (w₁, .joined count)

/-! ### Notification registry (`notifications.ts`) -/

/-- `notificationRecords : Map<userId, Map<setCode, {lastNotified}>>`. -/
abbrev NotificationRegistry := List (String × List (String × Int))

/-- 12 hours in milliseconds. -/
def NOTIFICATION_COOLDOWN_MS : Int := 12 * 60 * 60 * 1000

/-- `optInForNotifications`: idempotent, initialises `lastNotified = 0`
(the source's `upperSetCode` local is inlined as `jsToUpper setCode`). -/
def optInForNotifications (reg : NotificationRegistry)
    (userId setCode : String) : NotificationRegistry :=
  match alistGet reg userId with
  | none => reg ++ [(userId, [(jsToUpper setCode, 0)])]
  | some m =>
      if (alistGet m (jsToUpper setCode)).isSome then reg
      else alistSet reg userId (m ++ [(jsToUpper setCode, 0)])

/-- `optOutOfNotifications`: delete the record, dropping the user's map when
it becomes empty; `true` when a subscription existed. -/
def optOutOfNotifications (reg : NotificationRegistry)
    (userId setCode : String) : NotificationRegistry × Bool :=
  match alistGet reg userId with
  | none => (reg, false)
  | some m =>
      if (alistGet m (jsToUpper setCode)).isSome then
        if (alistDel m (jsToUpper setCode)).isEmpty then (alistDel reg userId, true)
        else (alistSet reg userId (alistDel m (jsToUpper setCode)), true)
      else (reg, false)

/-- `canNotify`: subscribed and `now - lastNotified >= cooldown`
(`now` stands for `Date.now()`). -/
def canNotify (reg : NotificationRegistry) (userId setCode : String)
    (now : Int) : Bool :=
  match alistGet reg userId with
  | none => false
  | some m =>
      match alistGet m (jsToUpper setCode) with
      | none => false
      | some last => decide (NOTIFICATION_COOLDOWN_MS ≤ now - last)

/-- `markAsNotified`: stamp `now` on an existing record. -/
def markAsNotified (reg : NotificationRegistry) (userId setCode : String)
    (now : Int) : NotificationRegistry :=
  match alistGet reg userId with
  | none => reg
  | some m =>
      match alistGet m (jsToUpper setCode) with
      | none => reg
      | some _ => alistSet reg userId (alistSet m (jsToUpper setCode) now)

/-- `resetNotificationTimer`: back to `0` ("never notified"); `false` when not
subscribed. -/
def resetNotificationTimer (reg : NotificationRegistry)
    (userId setCode : String) : NotificationRegistry × Bool :=
  match alistGet reg userId with
  | none => (reg, false)
  | some m =>
      match alistGet m (jsToUpper setCode) with
      | none => (reg, false)
      | some _ => (alistSet reg userId (alistSet m (jsToUpper setCode) 0), true)

/-- The subscription record (last-notified stamp) of `(userId, setCode)`. -/
def notifRecord (reg : NotificationRegistry) (userId setCode : String) :
    Option Int :=
  (alistGet reg userId).bind fun m => alistGet m (jsToUpper setCode)

/-! ### Spec-side and invariant definitions used by the claim statements -/

/-- Written from the spec's words for the status-query refinement check:
"the earliest round that is not fully resolved, or the highest round if all
are resolved". -/
def specActiveRound (r1 r2 r3 : List MatchupRow) : Nat :=
  if !r1.isEmpty && !roundCompleteB r1 then 1
  else if !r2.isEmpty && !roundCompleteB r2 then 2
  else if !r3.isEmpty && !roundCompleteB r3 then 3
  else if !r3.isEmpty then 3
  else if !r2.isEmpty then 2
  else 1

/-- Boolean pairwise check (used so that well-formedness stays decidable). -/
def pairwiseB {α : Type} (r : α → α → Bool) : List α → Bool
  | [] => true
  | a :: l => l.all (r a) && pairwiseB r l

/-- Does this raw row belong to the pod under the case-insensitive match used
by `getDraftStatus` / `createNextRoundIfReady`? -/
def rowLowMatches (pod : String) (v : Row) : Bool :=
  jsToLower (jsTrim (cell v 0)) == jsToLower pod

/-- A raw row is open when its trimmed winner cell is empty. -/
def rowOpen (v : Row) : Bool := jsTrim (cell v 5) == ""

/-- Unordered player pair equality between two raw rows. -/
def rowsSamePair (u v : Row) : Bool :=
  unorderedPairEq (jsTrim (cell u 3)) (jsTrim (cell u 4))
    (jsTrim (cell v 3)) (jsTrim (cell v 4))

/-- Canonical bracket coordinates: the `(round, match #)` values the engine
itself ever writes. -/
def canonicalNums (round matchNum : Int) : Prop :=
  (round = 1 ∧ 1 ≤ matchNum ∧ matchNum ≤ 4)
  ∨ (round = 2 ∧ 5 ≤ matchNum ∧ matchNum ≤ 8)
  ∨ (round = 3 ∧ 9 ≤ matchNum ∧ matchNum ≤ 12)

/-- Well-formedness of the stored matchup rows of one pod — the facts that
hold for every state the engine itself produces (rows are written by
`createRound1Matchups` / `createNextRoundIfReady` with a consistent name,
canonical coordinates, disjoint slots per round, and winners recorded by
`reportMatch`), phrased over arbitrary stored rows. -/
def PodWF (values : List Row) (pod : String) : Prop :=
  -- consistent casing: rows of this pod carry exactly the name `pod`
  (∀ v ∈ values, rowLowMatches pod v = true → jsTrim (cell v 0) = pod)
  -- every pod row parses, with canonical coordinates and nonempty slots
  ∧ (∀ v ∈ values, rowLowMatches pod v = true →
      ∃ p, parseMatchupRow v = some p ∧ canonicalNums p.round p.matchNum
        ∧ p.p1 ≠ "" ∧ p.p2 ≠ "")
  -- within one round of the pod, all eight slots are pairwise distinct
  ∧ pairwiseB (fun u v =>
      !(rowLowMatches pod u && rowLowMatches pod v
          && (jsParseInt (cell u 1) == jsParseInt (cell v 1)))
      || ((jsTrim (cell u 3) != jsTrim (cell v 3))
          && (jsTrim (cell u 3) != jsTrim (cell v 4))
          && (jsTrim (cell u 4) != jsTrim (cell v 3))
          && (jsTrim (cell u 4) != jsTrim (cell v 4)))) values = true
  ∧ (∀ v ∈ values, rowLowMatches pod v = true →
      jsTrim (cell v 3) ≠ jsTrim (cell v 4))
  -- match numbers are unique within the pod
  ∧ pairwiseB (fun u v =>
      !(rowLowMatches pod u && rowLowMatches pod v)
      || (jsParseInt (cell u 2) != jsParseInt (cell v 2))) values = true
  -- no two open rows of the pod pair the same two players
  ∧ pairwiseB (fun u v =>
      !(rowLowMatches pod u && rowLowMatches pod v && rowOpen u && rowOpen v)
      || !rowsSamePair u v) values = true
  -- a recorded winner is one of the row's two players
  ∧ (∀ v ∈ values, rowLowMatches pod v = true → rowOpen v = false →
      jsTrim (cell v 5) = jsTrim (cell v 3) ∨ jsTrim (cell v 5) = jsTrim (cell v 4))
  -- rounds are created in order ...
  ∧ (roundRows (matchupRowsFor values pod) 2 = [] →
      roundRows (matchupRowsFor values pod) 3 = [])
  -- ... and only once the previous round is fully reported
  ∧ (roundRows (matchupRowsFor values pod) 2 ≠ [] →
      ∀ p ∈ roundRows (matchupRowsFor values pod) 1, p.winner ≠ "")

/-- Two matchup rows share no player slot. -/
def slotsDisjoint (p q : MatchupRow) : Prop :=
  p.p1 ≠ q.p1 ∧ p.p1 ≠ q.p2 ∧ p.p2 ≠ q.p1 ∧ p.p2 ≠ q.p2

/-- Is timer handle `o` armed? (`1` / `0` so the two fields can be summed.) -/
def armedFlag (armed : List Nat) : Option Nat → Nat
  | some t => if t ∈ armed then 1 else 0
  | none => 0

/-- Number of armed timers held by one participant record. -/
def armedCount (armed : List Nat) (p : PlayerInfo) : Nat :=
  armedFlag armed p.reminderTimerId + armedFlag armed p.queueTimeoutTimerId

/-- All timer handles of a record were allocated below the counter. -/
def idsBelow (p : PlayerInfo) (n : Nat) : Prop :=
  (∀ t, p.reminderTimerId = some t → t < n)
  ∧ (∀ t, p.queueTimeoutTimerId = some t → t < n)

/-- Timer invariant: every participant of every queue holds at most one armed
timer, and all handles are below the allocation counter. -/
def TimerInv (w : World) : Prop :=
  ∀ kq ∈ w.drafts, ∀ up ∈ kq.2,
    armedCount w.armed up.2 ≤ 1 ∧ idsBelow up.2 w.nextTimer

/-- Queue-size invariant: between commands every queue has at most 7
players (a queue reaching 8 is materialised and deleted within the same
command). -/
def SizeInv (w : World) : Prop :=
  ∀ kq ∈ w.drafts, kq.2.length ≤ 7

/-! ## Lemmas about the association-list model -/

theorem alistGet_cons {α : Type} (kv : String × α) (l : List (String × α))
    (k : String) :
    alistGet (kv :: l) k = if kv.1 == k then some kv.2 else alistGet l k := by
  by_cases h : kv.1 == k
  · simp [alistGet, List.find?_cons_of_pos _ h, h]
  · have hf : List.find? (fun x : String × α => x.1 == k) (kv :: l)
        = List.find? (fun x : String × α => x.1 == k) l :=
      List.find?_cons_of_neg _ h
    simp [alistGet, hf, h]

theorem alistSet_cons {α : Type} (hd : String × α) (tl : List (String × α))
    (k : String) (v : α) :
    alistSet (hd :: tl) k v
      = (if hd.1 == k then (k, v) else hd) :: alistSet tl k v := rfl

theorem alistDel_cons {α : Type} (hd : String × α) (tl : List (String × α))
    (k : String) :
    alistDel (hd :: tl) k
      = if hd.1 == k then alistDel tl k else hd :: alistDel tl k := by
  by_cases hk : hd.1 == k <;> simp [alistDel, List.filter_cons, hk]

theorem alistGet_append_single {α : Type} (l : List (String × α)) (k : String)
    (v : α) (h : alistGet l k = none) : alistGet (l ++ [(k, v)]) k = some v := by
  induction l with
  | nil => simp [alistGet_cons, alistGet]
  | cons hd tl ih =>
      rw [alistGet_cons] at h
      rw [List.cons_append, alistGet_cons]
      by_cases hk : hd.1 == k
      · rw [if_pos hk] at h; exact absurd h (by simp)
      · rw [if_neg hk] at h
        rw [if_neg hk]
        exact ih h

theorem alistGet_alistSet_self {α : Type} (l : List (String × α)) (k : String)
    (v w : α) (h : alistGet l k = some w) :
    alistGet (alistSet l k v) k = some v := by
  induction l with
  | nil => simp [alistGet] at h
  | cons hd tl ih =>
      rw [alistGet_cons] at h
      rw [alistSet_cons, alistGet_cons]
      by_cases hk : hd.1 == k
      · rw [if_pos hk]
        simp
      · rw [if_neg hk] at h
        rw [if_neg hk, if_neg hk]
        exact ih h

theorem alistGet_alistSet_ne {α : Type} (l : List (String × α)) (k k' : String)
    (v : α) (h : k ≠ k') : alistGet (alistSet l k v) k' = alistGet l k' := by
  induction l with
  | nil => simp [alistSet, alistGet]
  | cons hd tl ih =>
      rw [alistSet_cons, alistGet_cons, alistGet_cons]
      by_cases hk : hd.1 == k
      · have hv : hd.1 = k := by simpa using hk
        have hne : ¬((k : String) == k') := by simpa using h
        have hne' : ¬(hd.1 == k') := by simpa [hv] using h
        rw [if_pos hk]
        simp only [hne, hne', Bool.false_eq_true, if_false]
        exact ih
      · rw [if_neg hk]
        by_cases hk' : hd.1 == k'
        · rw [if_pos hk', if_pos hk']
        · rw [if_neg hk', if_neg hk']
          exact ih

theorem alistGet_alistDel_self {α : Type} (l : List (String × α)) (k : String) :
    alistGet (alistDel l k) k = none := by
  induction l with
  | nil => rfl
  | cons hd tl ih =>
      rw [alistDel_cons]
      by_cases hk : hd.1 == k
      · rw [if_pos hk]; exact ih
      · rw [if_neg hk, alistGet_cons, if_neg hk]; exact ih

theorem alistGet_alistDel_ne {α : Type} (l : List (String × α)) (k k' : String)
    (h : k ≠ k') : alistGet (alistDel l k) k' = alistGet l k' := by
  induction l with
  | nil => rfl
  | cons hd tl ih =>
      rw [alistDel_cons, alistGet_cons]
      by_cases hk : hd.1 == k
      · have hv : hd.1 = k := by simpa using hk
        have hne' : ¬(hd.1 == k') := by simpa [hv] using h
        rw [if_pos hk, if_neg hne']
        exact ih
      · rw [if_neg hk, alistGet_cons]
        by_cases hk' : hd.1 == k'
        · rw [if_pos hk', if_pos hk']
        · rw [if_neg hk', if_neg hk']
          exact ih

theorem mem_alistSet {α : Type} {l : List (String × α)} {k : String} {v : α}
    {x : String × α} (h : x ∈ alistSet l k v) : x = (k, v) ∨ x ∈ l := by
  rcases List.mem_map.mp h with ⟨kv, hkv, hx⟩
  by_cases hk : kv.1 == k
  · left; simp [hk] at hx; exact hx.symm
  · right; simp [hk] at hx; exact hx ▸ hkv

theorem mem_alistDel {α : Type} {l : List (String × α)} {k : String}
    {x : String × α} (h : x ∈ alistDel l k) : x ∈ l :=
  (List.mem_filter.mp h).1

theorem alistGet_mem {α : Type} {l : List (String × α)} {k : String} {v : α}
    (h : alistGet l k = some v) : (k, v) ∈ l := by
  rcases Option.map_eq_some'.mp h with ⟨kv, hfind, hv⟩
  have hmem := List.mem_of_find?_eq_some hfind
  have hkey : kv.1 = k := by simpa using List.find?_some hfind
  have : kv = (k, v) := by
    cases kv; simp at hkey hv; simp [hkey, hv]
  exact this ▸ hmem

/-! ## C10: case normalization of the notification registry -/

/-- **C10.** Every notification-registry operation normalises the queue key to
upper case, so `optIn`, `optOut`, `canNotify`, `markNotified` and `resetTimer`
behave identically on any two case variants of the key. -/
theorem notificationOps_caseInsensitive (reg : NotificationRegistry)
    (userId k1 k2 : String) (h : jsToUpper k1 = jsToUpper k2) :
    optInForNotifications reg userId k1 = optInForNotifications reg userId k2
    ∧ optOutOfNotifications reg userId k1 = optOutOfNotifications reg userId k2
    ∧ (∀ now : Int, canNotify reg userId k1 now = canNotify reg userId k2 now)
    ∧ (∀ now : Int,
        markAsNotified reg userId k1 now = markAsNotified reg userId k2 now)
    ∧ resetNotificationTimer reg userId k1
        = resetNotificationTimer reg userId k2 := by
  refine ⟨?_, ?_, ?_, ?_, ?_⟩ <;>
    simp only [optInForNotifications, optOutOfNotifications, canNotify,
      markAsNotified, resetNotificationTimer, h, implies_true]

/-- Witness for C10 at a concrete registry and the key variants
`"tla"` / `"TLA"`. -/
theorem notificationOps_caseInsensitive_witness :
    canNotify (optInForNotifications [] "u" "tla") "u" "tla" NOTIFICATION_COOLDOWN_MS
      = canNotify (optInForNotifications [] "u" "tla") "u" "TLA" NOTIFICATION_COOLDOWN_MS :=
  (notificationOps_caseInsensitive (optInForNotifications [] "u" "tla")
    "u" "tla" "TLA" (by decide)).2.2.1 NOTIFICATION_COOLDOWN_MS

/-! ## C9: cooldown gate of the notification registry -/

/-- **C9.** `canNotify` is true exactly when subscribed and at least 12 hours
(the cooldown) have elapsed since the last notification; `optIn` initialises
the stamp to `0`, making a fresh subscriber immediately eligible (any real
`Date.now()` exceeds the cooldown); `resetTimer` resets the stamp to `0` and
returns `false` when not subscribed. -/
theorem canNotify_cooldown_spec (reg : NotificationRegistry)
    (userId setCode : String) (now : Int)
    (hnow : NOTIFICATION_COOLDOWN_MS ≤ now) :
    (canNotify reg userId setCode now = true ↔
      ∃ last, notifRecord reg userId setCode = some last
        ∧ NOTIFICATION_COOLDOWN_MS ≤ now - last)
    ∧ (notifRecord reg userId setCode = none →
        notifRecord (optInForNotifications reg userId setCode) userId setCode
          = some 0
        ∧ canNotify (optInForNotifications reg userId setCode) userId setCode now
          = true)
    ∧ (∀ last, notifRecord reg userId setCode = some last →
        (resetNotificationTimer reg userId setCode).2 = true
        ∧ notifRecord (resetNotificationTimer reg userId setCode).1 userId setCode
            = some 0
        ∧ canNotify (resetNotificationTimer reg userId setCode).1 userId setCode now
            = true)
    ∧ (notifRecord reg userId setCode = none →
        resetNotificationTimer reg userId setCode = (reg, false)) := by
  refine ⟨?_, ?_, ?_, ?_⟩
  · constructor
    · intro hc
      rcases hu : alistGet reg userId with _ | m
      · simp [canNotify, hu] at hc
      · rcases hm : alistGet m (jsToUpper setCode) with _ | last
        · simp [canNotify, hu, hm] at hc
        · simp only [canNotify, hu, hm, decide_eq_true_eq] at hc
          exact ⟨last, by simp [notifRecord, hu, hm], hc⟩
    · rintro ⟨last, hrec, hcd⟩
      rcases hu : alistGet reg userId with _ | m
      · simp [notifRecord, hu] at hrec
      · simp only [notifRecord, hu, Option.some_bind] at hrec
        simp [canNotify, hu, hrec, hcd]
  · intro hnone
    rcases hu : alistGet reg userId with _ | m
    · have hget : alistGet (reg ++ [(userId, [(jsToUpper setCode, (0 : Int))])]) userId
          = some [(jsToUpper setCode, (0 : Int))] :=
        alistGet_append_single reg userId _ hu
      constructor
      · simp [optInForNotifications, hu, notifRecord, hget, alistGet_cons]
      · simp only [optInForNotifications, hu, canNotify, hget, alistGet_cons,
          beq_self_eq_true, if_true]
        simpa using hnow
    · simp only [notifRecord, hu, Option.some_bind] at hnone
      have hset : alistGet (alistSet reg userId (m ++ [(jsToUpper setCode, (0 : Int))])) userId
          = some (m ++ [(jsToUpper setCode, (0 : Int))]) :=
        alistGet_alistSet_self reg userId _ m hu
      have hinner : alistGet (m ++ [(jsToUpper setCode, (0 : Int))]) (jsToUpper setCode)
          = some 0 := alistGet_append_single m (jsToUpper setCode) _ hnone
      constructor
      · simp [optInForNotifications, hu, hnone, notifRecord, hset, hinner]
      · simp only [optInForNotifications, hu, hnone, Option.isSome_none,
          Bool.false_eq_true, if_false, canNotify, hset, hinner]
        simpa using hnow
  · intro last hrec
    rcases hu : alistGet reg userId with _ | m
    · simp [notifRecord, hu] at hrec
    · simp only [notifRecord, hu, Option.some_bind] at hrec
      have hset : alistGet (alistSet reg userId (alistSet m (jsToUpper setCode) 0)) userId
          = some (alistSet m (jsToUpper setCode) 0) :=
        alistGet_alistSet_self reg userId _ m hu
      have hinner : alistGet (alistSet m (jsToUpper setCode) (0 : Int)) (jsToUpper setCode)
          = some 0 := alistGet_alistSet_self m (jsToUpper setCode) _ last hrec
      refine ⟨by simp [resetNotificationTimer, hu, hrec], ?_, ?_⟩
      · simp [resetNotificationTimer, hu, hrec, notifRecord, hset, hinner]
      · simp only [resetNotificationTimer, hu, hrec, canNotify, hset, hinner]
        simpa using hnow
  · intro hnone
    rcases hu : alistGet reg userId with _ | m
    · simp [resetNotificationTimer, hu]
    · simp only [notifRecord, hu, Option.some_bind] at hnone
      simp [resetNotificationTimer, hu, hnone]

/-- Witness for C9: a fresh opt-in is immediately eligible at a realistic
clock value. -/
theorem canNotify_cooldown_spec_witness :
    canNotify (optInForNotifications [] "u" "tla") "u" "tla" 1700000000000 = true := by
  have h := canNotify_cooldown_spec ([] : NotificationRegistry) "u" "tla"
    1700000000000 (by norm_num [NOTIFICATION_COOLDOWN_MS])
  exact (h.2.1 (by decide)).2

/-! ## C4: pod-name case sensitivity across the bracket operations -/

/-- **C4 counterexample.** The claim "matchup row lookup is case-insensitive
on pod name in every bracket operation" is false: on a store holding one open
row for pod `"CUBE"`, `reportMatch` under the case variant `"cube"` finds no
row (typed failure) while under `"CUBE"` it succeeds — so `reportMatch` does
not select the same rows for case variants of the pod name. -/
theorem reportMatch_notCaseInsensitive :
    (reportMatch ⟨[["CUBE", "1", "1", "A", "B", "", ""]], []⟩
        "cube" "A" "B" "2-0" false).2 = .failure noMatchupMsg
    ∧ (reportMatch ⟨[["CUBE", "1", "1", "A", "B", "", ""]], []⟩
        "CUBE" "A" "B" "2-0" false).2 = .ok := by
  constructor <;> rfl

/-- **C4 amended.** `getStatus` and next-round synthesis select rows
case-insensitively — their shared row-collection loop `matchupRowsFor` yields
the same rows for any case variants of the pod name — while `reportMatch`
selects only rows whose stored (trimmed) pod name equals the queried name
exactly. -/
theorem rowSelection_caseBehaviour (values : List Row) (pod1 pod2 : String)
    (h : jsToLower pod1 = jsToLower pod2) :
    matchupRowsFor values pod1 = matchupRowsFor values pod2
    ∧ (∀ w l row, rowMatchesReport pod1 w l row = true →
        jsTrim (cell row 0) = pod1) := by
  constructor
  · simp only [matchupRowsFor, h]
  · intro w l row hmatch
    simp only [rowMatchesReport, Bool.and_eq_true, beq_iff_eq,
      decide_eq_true_eq] at hmatch
    exact hmatch.1.1.2

/-- Witness for the amended C4 at concrete rows and the case variants
`"tla"` / `"TLA"`. -/
theorem rowSelection_caseBehaviour_witness :
    matchupRowsFor [["TLA", "1", "1", "A", "B", "", ""]] "tla"
      = matchupRowsFor [["TLA", "1", "1", "A", "B", "", ""]] "TLA" :=
  (rowSelection_caseBehaviour [["TLA", "1", "1", "A", "B", "", ""]]
    "tla" "TLA" (by decide)).1

/-! ## C3: the status query -/

theorem roundCompleteB_ne_nil {rs : List MatchupRow}
    (h : roundCompleteB rs = true) : rs ≠ [] := by
  rintro rfl; simp [roundCompleteB] at h

/-- **C3.** `getStatus` reports completion exactly when round 3 has 4
well-formed rows, all with a winner; it fails with "no matchups found" when no
well-formed row matches the pod; and on bracket states the engine itself
produces (rounds numbered 1-3, each next round created only after the
previous one was fully reported) the returned round is the spec's active
round — the earliest unresolved round, or the highest existing one — with
that round's matches. -/
theorem getDraftStatus_spec (values : List Row) (pod : String) :
    (matchupRowsFor values pod = [] →
      getDraftStatus values pod
        = .failure ("No matchups found for draft `" ++ pod ++ "`."))
    ∧ (matchupRowsFor values pod ≠ [] →
        (getDraftStatus values pod = .complete
          ↔ roundCompleteB (roundRows (matchupRowsFor values pod) 3) = true))
    ∧ ((∀ r ∈ matchupRowsFor values pod,
          r.round = 1 ∨ r.round = 2 ∨ r.round = 3) →
       (roundRows (matchupRowsFor values pod) 2 ≠ [] →
          roundCompleteB (roundRows (matchupRowsFor values pod) 1) = true) →
       (roundRows (matchupRowsFor values pod) 3 ≠ [] →
          roundCompleteB (roundRows (matchupRowsFor values pod) 2) = true) →
       matchupRowsFor values pod ≠ [] →
       roundCompleteB (roundRows (matchupRowsFor values pod) 3) ≠ true →
       getDraftStatus values pod =
         .active
           (specActiveRound (roundRows (matchupRowsFor values pod) 1)
             (roundRows (matchupRowsFor values pod) 2)
             (roundRows (matchupRowsFor values pod) 3))
           ((roundRows (matchupRowsFor values pod)
             (specActiveRound (roundRows (matchupRowsFor values pod) 1)
               (roundRows (matchupRowsFor values pod) 2)
               (roundRows (matchupRowsFor values pod) 3))).map toMatchStatus)) := by
  refine ⟨?_, ?_, ?_⟩
  · intro h
    simp [getDraftStatus, h]
  · intro hne
    rw [getDraftStatus]
    rw [if_neg (by simpa [List.isEmpty_iff] using hne)]
    by_cases h3 : roundCompleteB (roundRows (matchupRowsFor values pod) 3) = true
    · simp [h3]
    · rw [if_neg h3]
      constructor
      · intro hcontra
        split at hcontra
        · simp_all
        · split at hcontra <;> simp_all
      · intro hc; exact absurd hc h3
  · intro hround h21 h32 hne h3ne
    have hsplit : ∀ r ∈ matchupRowsFor values pod,
        r ∈ roundRows (matchupRowsFor values pod) 1
        ∨ r ∈ roundRows (matchupRowsFor values pod) 2
        ∨ r ∈ roundRows (matchupRowsFor values pod) 3 := by
      intro r hr
      rcases hround r hr with h | h | h
      · exact Or.inl (List.mem_filter.mpr ⟨hr, by simp [h]⟩)
      · exact Or.inr (Or.inl (List.mem_filter.mpr ⟨hr, by simp [h]⟩))
      · exact Or.inr (Or.inr (List.mem_filter.mpr ⟨hr, by simp [h]⟩))
    rw [getDraftStatus]
    rw [if_neg (by simpa [List.isEmpty_iff] using hne)]
    rw [if_neg h3ne]
    by_cases hA : (roundCompleteB (roundRows (matchupRowsFor values pod) 2)
        && !(roundRows (matchupRowsFor values pod) 3).isEmpty) = true
    · rw [if_pos hA]
      rcases Bool.and_eq_true .. |>.mp hA with ⟨h2C, h3e⟩
      have h3ne' : roundRows (matchupRowsFor values pod) 3 ≠ [] := by
        simpa [List.isEmpty_iff] using h3e
      have h2ne' : roundRows (matchupRowsFor values pod) 2 ≠ [] :=
        roundCompleteB_ne_nil h2C
      have h1C := h21 h2ne'
      have : specActiveRound (roundRows (matchupRowsFor values pod) 1)
          (roundRows (matchupRowsFor values pod) 2)
          (roundRows (matchupRowsFor values pod) 3) = 3 := by
        unfold specActiveRound
        rw [if_neg (by simp [h1C]), if_neg (by simp [h2C]),
          if_pos (by simp [List.isEmpty_iff, h3ne', h3ne])]
      rw [this]
      norm_num
    · rw [if_neg hA]
      by_cases hB : (roundCompleteB (roundRows (matchupRowsFor values pod) 1)
          && !(roundRows (matchupRowsFor values pod) 2).isEmpty) = true
      · rw [if_pos hB]
        rcases Bool.and_eq_true .. |>.mp hB with ⟨h1C, h2e⟩
        have h2ne' : roundRows (matchupRowsFor values pod) 2 ≠ [] := by
          simpa [List.isEmpty_iff] using h2e
        have : specActiveRound (roundRows (matchupRowsFor values pod) 1)
            (roundRows (matchupRowsFor values pod) 2)
            (roundRows (matchupRowsFor values pod) 3) = 2 := by
          unfold specActiveRound
          rw [if_neg (by simp [h1C])]
          by_cases h2C : roundCompleteB (roundRows (matchupRowsFor values pod) 2) = true
          · have h3nil : roundRows (matchupRowsFor values pod) 3 = [] := by
              by_contra h3nn
              exact hA (by simp [h2C, List.isEmpty_iff, h3nn])
            rw [if_neg (by simp [h2C]), if_neg (by simp [h3nil]),
              if_neg (by simp [h3nil]), if_pos (by simp [List.isEmpty_iff, h2ne'])]
          · rw [if_pos (by simp [List.isEmpty_iff, h2ne', h2C])]
        rw [this]
        norm_num
      · rw [if_neg hB]
        have h2nil : roundRows (matchupRowsFor values pod) 2 = [] := by
          by_contra h2nn
          exact hB (by simp [h21 h2nn, List.isEmpty_iff, h2nn])
        have h3nil : roundRows (matchupRowsFor values pod) 3 = [] := by
          by_contra h3nn
          exact absurd (h2nil ▸ roundCompleteB_ne_nil (h32 h3nn)) (by simp)
        have h1ne : roundRows (matchupRowsFor values pod) 1 ≠ [] := by
          rcases List.exists_mem_of_ne_nil _ hne with ⟨r, hr⟩
          rcases hsplit r hr with h | h | h
          · exact List.ne_nil_of_mem h
          · rw [h2nil] at h; cases h
          · rw [h3nil] at h; cases h
        have : specActiveRound (roundRows (matchupRowsFor values pod) 1)
            (roundRows (matchupRowsFor values pod) 2)
            (roundRows (matchupRowsFor values pod) 3) = 1 := by
          unfold specActiveRound
          by_cases h1C : roundCompleteB (roundRows (matchupRowsFor values pod) 1) = true
          · rw [if_neg (by simp [h1C]), if_neg (by simp [h2nil]),
              if_neg (by simp [h3nil]), if_neg (by simp [h3nil]),
              if_neg (by simp [h2nil])]
          · rw [if_pos (by simp [List.isEmpty_iff, h1ne, h1C])]
        rw [this]
        norm_num

/-- Witness for C3 on a small well-formed bracket state: round 1 half
reported. -/
theorem getDraftStatus_spec_witness :
    getDraftStatus
        [["P", "1", "1", "A", "B", "A", "2-0"], ["P", "1", "2", "C", "D", "", ""],
         ["P", "1", "3", "E", "F", "", ""], ["P", "1", "4", "G", "H", "", ""]] "P"
      = .active 1
          ((roundRows (matchupRowsFor
            [["P", "1", "1", "A", "B", "A", "2-0"], ["P", "1", "2", "C", "D", "", ""],
             ["P", "1", "3", "E", "F", "", ""], ["P", "1", "4", "G", "H", "", ""]] "P")
            1).map toMatchStatus) := by
  have h := (getDraftStatus_spec
    [["P", "1", "1", "A", "B", "A", "2-0"], ["P", "1", "2", "C", "D", "", ""],
     ["P", "1", "3", "E", "F", "", ""], ["P", "1", "4", "G", "H", "", ""]] "P").2.2
    (by decide) (by decide) (by decide) (by decide) (by decide)
  simpa using h

/-! ## C2: next-round synthesis -/

/-- **C2.** `createNextRoundIfReady` (pretend off) synthesises a round exactly
when the just-completed round has exactly 4 rows, all with a winner, and the
next round has no rows yet; and the synthesised rows are the deterministic
winner/loser pairing formulas — round 2 is match 5 = winner(m1) vs winner(m2),
match 6 = winner(m3) vs winner(m4), match 7 = loser(m1) vs loser(m2), match 8
= loser(m3) vs loser(m4), and round 3 pairs matches 5-8 into 9-12 the same
way. -/
theorem createNextRound_spec (values : List Row) (pod : String) :
    (roundCompleteB (roundRows (matchupRowsFor values pod) 1) = true →
     roundRows (matchupRowsFor values pod) 2 = [] →
     ∀ m1 m2 m3 m4,
       (roundRows (matchupRowsFor values pod) 1).find? (fun r => r.matchNum == 1) = some m1 →
       (roundRows (matchupRowsFor values pod) 1).find? (fun r => r.matchNum == 2) = some m2 →
       (roundRows (matchupRowsFor values pod) 1).find? (fun r => r.matchNum == 3) = some m3 →
       (roundRows (matchupRowsFor values pod) 1).find? (fun r => r.matchNum == 4) = some m4 →
       createNextRoundIfReady values pod false = some (true, values ++
         [[pod, "2", "5", m1.winner, m2.winner, "", ""],
          [pod, "2", "6", m3.winner, m4.winner, "", ""],
          [pod, "2", "7", getLoser m1, getLoser m2, "", ""],
          [pod, "2", "8", getLoser m3, getLoser m4, "", ""]]))
    ∧ (¬(roundCompleteB (roundRows (matchupRowsFor values pod) 1) = true ∧
          roundRows (matchupRowsFor values pod) 2 = []) →
       roundCompleteB (roundRows (matchupRowsFor values pod) 2) = true →
       roundRows (matchupRowsFor values pod) 3 = [] →
       ∀ m5 m6 m7 m8,
       (roundRows (matchupRowsFor values pod) 2).find? (fun r => r.matchNum == 5) = some m5 →
       (roundRows (matchupRowsFor values pod) 2).find? (fun r => r.matchNum == 6) = some m6 →
       (roundRows (matchupRowsFor values pod) 2).find? (fun r => r.matchNum == 7) = some m7 →
       (roundRows (matchupRowsFor values pod) 2).find? (fun r => r.matchNum == 8) = some m8 →
       createNextRoundIfReady values pod false = some (true, values ++
         [[pod, "3", "9", m5.winner, m6.winner, "", ""],
          [pod, "3", "10", m7.winner, m8.winner, "", ""],
          [pod, "3", "11", getLoser m5, getLoser m6, "", ""],
          [pod, "3", "12", getLoser m7, getLoser m8, "", ""]]))
    ∧ (¬(roundCompleteB (roundRows (matchupRowsFor values pod) 1) = true ∧
          roundRows (matchupRowsFor values pod) 2 = []) →
       ¬(roundCompleteB (roundRows (matchupRowsFor values pod) 2) = true ∧
          roundRows (matchupRowsFor values pod) 3 = []) →
       createNextRoundIfReady values pod false = some (false, values))
    ∧ (∀ b vs, createNextRoundIfReady values pod false = some (b, vs) →
        (b = true ↔
          (roundCompleteB (roundRows (matchupRowsFor values pod) 1) = true ∧
            roundRows (matchupRowsFor values pod) 2 = [])
          ∨ (roundCompleteB (roundRows (matchupRowsFor values pod) 2) = true ∧
              roundRows (matchupRowsFor values pod) 3 = []))) := by
  refine ⟨?_, ?_, ?_, ?_⟩
  · intro h1C h2nil m1 m2 m3 m4 hm1 hm2 hm3 hm4
    rw [createNextRoundIfReady]
    rw [if_pos (by simp [h1C, List.isEmpty_iff, h2nil])]
    simp [buildRound2Rows, hm1, hm2, hm3, hm4]
  · intro hnc1 h2C h3nil m5 m6 m7 m8 hm5 hm6 hm7 hm8
    rw [createNextRoundIfReady]
    rw [if_neg (by
      simp only [Bool.and_eq_true, List.isEmpty_iff]
      rintro ⟨ha, hb⟩; exact hnc1 ⟨ha, hb⟩)]
    rw [if_pos (by simp [h2C, List.isEmpty_iff, h3nil])]
    simp [buildRound3Rows, hm5, hm6, hm7, hm8]
  · intro hnc1 hnc2
    rw [createNextRoundIfReady]
    rw [if_neg (by
      simp only [Bool.and_eq_true, List.isEmpty_iff]
      rintro ⟨ha, hb⟩; exact hnc1 ⟨ha, hb⟩)]
    rw [if_neg (by
      simp only [Bool.and_eq_true, List.isEmpty_iff]
      rintro ⟨ha, hb⟩; exact hnc2 ⟨ha, hb⟩)]
  · intro b vs h
    rw [createNextRoundIfReady] at h
    by_cases hc1 : (roundCompleteB (roundRows (matchupRowsFor values pod) 1)
        && (roundRows (matchupRowsFor values pod) 2).isEmpty) = true
    · rw [if_pos hc1] at h
      rcases Option.map_eq_some'.mp h with ⟨nr, _, heq⟩
      have hb : b = true := by
        have := congrArg Prod.fst heq; simpa using this
      simp only [hb, true_iff]
      exact Or.inl (by simpa [List.isEmpty_iff] using hc1)
    · rw [if_neg hc1] at h
      by_cases hc2 : (roundCompleteB (roundRows (matchupRowsFor values pod) 2)
          && (roundRows (matchupRowsFor values pod) 3).isEmpty) = true
      · rw [if_pos hc2] at h
        rcases Option.map_eq_some'.mp h with ⟨nr, _, heq⟩
        have hb : b = true := by
          have := congrArg Prod.fst heq; simpa using this
        simp only [hb, true_iff]
        exact Or.inr (by simpa [List.isEmpty_iff] using hc2)
      · rw [if_neg hc2] at h
        have hb : b = false := by
          have := congrArg Prod.fst (Option.some.inj h); simpa using this.symm
        simp only [hb, Bool.false_eq_true, false_iff]
        rintro (hcon | hcon)
        · exact hc1 (by simp [hcon.1, List.isEmpty_iff, hcon.2])
        · exact hc2 (by simp [hcon.1, List.isEmpty_iff, hcon.2])

/-- Witness for C2: a fully-reported round 1 synthesises round 2 by the fixed
formula. -/
theorem createNextRound_spec_witness :
    createNextRoundIfReady
        [["P", "1", "1", "A", "B", "A", "2-0"], ["P", "1", "2", "C", "D", "C", "2-0"],
         ["P", "1", "3", "E", "F", "F", "2-1"], ["P", "1", "4", "G", "H", "H", "2-1"]]
        "P" false
      = some (true,
        [["P", "1", "1", "A", "B", "A", "2-0"], ["P", "1", "2", "C", "D", "C", "2-0"],
         ["P", "1", "3", "E", "F", "F", "2-1"], ["P", "1", "4", "G", "H", "H", "2-1"],
         ["P", "2", "5", "A", "C", "", ""], ["P", "2", "6", "F", "H", "", ""],
         ["P", "2", "7", "B", "D", "", ""], ["P", "2", "8", "E", "G", "", ""]]) := by
  have h := (createNextRound_spec
    [["P", "1", "1", "A", "B", "A", "2-0"], ["P", "1", "2", "C", "D", "C", "2-0"],
     ["P", "1", "3", "E", "F", "F", "2-1"], ["P", "1", "4", "G", "H", "H", "2-1"]]
    "P").1 (by decide) (by decide)
    { draftName := "P", round := 1, matchNum := 1, p1 := "A", p2 := "B",
      winner := "A", result := "2-0" }
    { draftName := "P", round := 1, matchNum := 2, p1 := "C", p2 := "D",
      winner := "C", result := "2-0" }
    { draftName := "P", round := 1, matchNum := 3, p1 := "E", p2 := "F",
      winner := "F", result := "2-1" }
    { draftName := "P", round := 1, matchNum := 4, p1 := "G", p2 := "H",
      winner := "H", result := "2-1" }
    (by decide) (by decide) (by decide) (by decide)
  simpa [getLoser] using h

/-! ## C6: round-1 creation -/

theorem multiset_set (l : List String) (i : Nat) (x d : String)
    (h : i < l.length) :
    (↑(l.set i x) : Multiset String) + {l.getD i d} = ↑l + {x} := by
  induction l generalizing i with
  | nil => simp at h
  | cons a t ih =>
      cases i with
      | zero =>
          show (↑(x :: t) : Multiset String) + {a} = ↑(a :: t) + {x}
          simp only [← Multiset.cons_coe, ← Multiset.singleton_add]
          abel
      | succ n =>
          have hn : n < t.length := by simpa using h
          show (↑(a :: t.set n x) : Multiset String) + {t.getD n d}
            = ↑(a :: t) + {x}
          simp only [← Multiset.cons_coe, Multiset.cons_add]
          rw [ih n hn]

theorem fyStep_length (l : List String) (i j : Nat) :
    (fyStep l i j).length = l.length := by simp [fyStep]

theorem fyStep_perm (l : List String) (i j : Nat) (hi : i < l.length)
    (hj : j < l.length) : (fyStep l i j).Perm l := by
  rw [← Multiset.coe_eq_coe]
  by_cases hij : i = j
  · subst hij
    rw [fyStep, List.set_set]
    exact add_right_cancel (multiset_set l i (l.getD i "") "" hi)
  · have h1 := multiset_set l i (l.getD j "") "" hi
    have h2 := multiset_set (l.set i (l.getD j "")) j (l.getD i "") ""
      (by simpa using hj)
    have hget : (l.set i (l.getD j "")).getD j "" = l.getD j "" := by
      rw [List.getD_eq_getElem?_getD, List.getElem?_set_ne hij,
        ← List.getD_eq_getElem?_getD]
    rw [hget] at h2
    exact add_right_cancel (h2.trans h1)

theorem fyLoop_perm (rand : Nat → Nat) (l : List String) (k : Nat)
    (hk : k < l.length) : (fyLoop rand l k).Perm l := by
  induction k generalizing l with
  | zero => exact List.Perm.refl l
  | succ n ih =>
      rw [fyLoop]
      have hj : rand (n + 1) % (n + 2) < l.length :=
        lt_of_le_of_lt (Nat.lt_succ_iff.mp (Nat.mod_lt _ (by omega))) hk
      have hstep := fyStep_perm l (n + 1) (rand (n + 1) % (n + 2)) hk hj
      have hlen : n < (fyStep l (n + 1) (rand (n + 1) % (n + 2))).length := by
        rw [fyStep_length]; omega
      exact (ih _ hlen).trans hstep

theorem shuffleArray_perm (rand : Nat → Nat) (l : List String) :
    (shuffleArray rand l).Perm l := by
  rcases l with _ | ⟨a, t⟩
  · exact List.Perm.refl _
  · exact fyLoop_perm rand _ _ (by simp [Nat.lt_succ_iff])

theorem pairsDisjoint_of_nodup (a0 a1 a2 a3 a4 a5 a6 a7 : String)
    (h : [a0, a1, a2, a3, a4, a5, a6, a7].Nodup) :
    List.Pairwise
      (fun a b : String × String =>
        a.1 ≠ b.1 ∧ a.1 ≠ b.2 ∧ a.2 ≠ b.1 ∧ a.2 ≠ b.2)
      [(a0, a1), (a2, a3), (a4, a5), (a6, a7)] := by
  simp only [List.nodup_cons, List.mem_cons, List.not_mem_nil, or_false,
    not_or, List.nodup_nil, and_true] at h
  simp only [List.pairwise_cons, List.mem_cons, List.not_mem_nil, or_false,
    List.mem_singleton]
  refine ⟨?_, ?_, ?_, ?_⟩ <;> try (intro p hp)
  all_goals try (rcases hp with rfl | rfl | rfl)
  all_goals simp_all

/-- **C6.** With pretend off, round-1 creation for exactly 8 user ids appends
exactly 4 rows with round `1`, match numbers 1-4 and empty winner / result,
whose 8 player slots are the Fisher-Yates shuffle of the input — a permutation
of the input ids — so for distinct ids the 4 player pairs are pairwise
disjoint; any other input length appends nothing. -/
theorem createRound1_spec (rand : Nat → Nat) (name : String)
    (ids : List String) :
    (ids.length ≠ 8 → createRound1Rows rand name ids = [])
    ∧ (ids.length = 8 →
        createRound1Rows rand name ids =
          [[name, "1", "1", (shuffleArray rand ids).getD 0 "",
              (shuffleArray rand ids).getD 1 "", "", ""],
           [name, "1", "2", (shuffleArray rand ids).getD 2 "",
              (shuffleArray rand ids).getD 3 "", "", ""],
           [name, "1", "3", (shuffleArray rand ids).getD 4 "",
              (shuffleArray rand ids).getD 5 "", "", ""],
           [name, "1", "4", (shuffleArray rand ids).getD 6 "",
              (shuffleArray rand ids).getD 7 "", "", ""]]
        ∧ [(shuffleArray rand ids).getD 0 "", (shuffleArray rand ids).getD 1 "",
           (shuffleArray rand ids).getD 2 "", (shuffleArray rand ids).getD 3 "",
           (shuffleArray rand ids).getD 4 "", (shuffleArray rand ids).getD 5 "",
           (shuffleArray rand ids).getD 6 "", (shuffleArray rand ids).getD 7 ""].Perm
            ids
        ∧ (ids.Nodup →
            List.Pairwise
              (fun a b : String × String =>
                a.1 ≠ b.1 ∧ a.1 ≠ b.2 ∧ a.2 ≠ b.1 ∧ a.2 ≠ b.2)
              [((shuffleArray rand ids).getD 0 "", (shuffleArray rand ids).getD 1 ""),
               ((shuffleArray rand ids).getD 2 "", (shuffleArray rand ids).getD 3 ""),
               ((shuffleArray rand ids).getD 4 "", (shuffleArray rand ids).getD 5 ""),
               ((shuffleArray rand ids).getD 6 "", (shuffleArray rand ids).getD 7 "")])) := by
  constructor
  · intro h; simp [createRound1Rows, h]
  · intro h8
    have hperm := shuffleArray_perm rand ids
    have hlen : (shuffleArray rand ids).length = 8 := by
      rw [hperm.length_eq, h8]
    rcases hs : shuffleArray rand ids with _ |
      ⟨a0, _ | ⟨a1, _ | ⟨a2, _ | ⟨a3, _ | ⟨a4, _ | ⟨a5, _ | ⟨a6, _ | ⟨a7, rest⟩⟩⟩⟩⟩⟩⟩⟩ <;>
      rw [hs] at hlen <;> simp at hlen
    subst hlen
    rw [hs] at hperm
    refine ⟨?_, ?_, ?_⟩
    · simp [createRound1Rows, h8, hs]
    · simpa [hs] using hperm
    · intro hnd
      have hnds : ([a0, a1, a2, a3, a4, a5, a6, a7]).Nodup :=
        hperm.nodup_iff.mpr hnd
      simpa [hs] using
        pairsDisjoint_of_nodup a0 a1 a2 a3 a4 a5 a6 a7 hnds

/-! ## C1 infrastructure: scanning, pairwise facts, trim idempotence -/

theorem scanRows_eq_none_iff (p : Row → Bool) (l : List Row) :
    scanRows p l = none ↔ ∀ v ∈ l, p v = false := by
  induction l with
  | nil => simp [scanRows]
  | cons v vs ih =>
      by_cases hv : p v
      · simp [scanRows, hv]
      · simp only [scanRows, hv, Bool.false_eq_true, if_false]
        rw [Option.map_eq_none']
        simp only [List.mem_cons]
        constructor
        · intro h u hu
          rcases hu with rfl | hu
          · simpa using hv
          · exact ih.mp h u hu
        · intro h
          exact ih.mpr fun u hu => h u (Or.inr hu)

theorem scanRows_eq_some (p : Row → Bool) (l : List Row) (i : Nat)
    (h : scanRows p l = some i) :
    i < l.length ∧ p (l.getD i []) = true := by
  induction l generalizing i with
  | nil => simp [scanRows] at h
  | cons v vs ih =>
      by_cases hv : p v
      · simp only [scanRows, hv, if_true, Option.some.injEq] at h
        subst h
        simpa using hv
      · simp only [scanRows, hv, Bool.false_eq_true, if_false] at h
        rcases Option.map_eq_some'.mp h with ⟨j, hj, hji⟩
        subst hji
        have := ih j hj
        constructor
        · simpa using this.1
        · simpa using this.2

theorem pairwiseB_iff {α : Type} (r : α → α → Bool) (l : List α) :
    pairwiseB r l = true ↔ List.Pairwise (fun a b => r a b = true) l := by
  induction l with
  | nil => simp [pairwiseB]
  | cons a t ih =>
      simp [pairwiseB, List.pairwise_cons, ih, List.all_eq_true, and_comm]

theorem dropWhile_idem (p : Char → Bool) (l : List Char) :
    (l.dropWhile p).dropWhile p = l.dropWhile p := by
  induction l with
  | nil => rfl
  | cons a t ih =>
      by_cases ha : p a
      · simp [List.dropWhile_cons, ha, ih]
      · simp [List.dropWhile_cons, ha]

theorem exists_append_dropWhile (p : Char → Bool) (l : List Char) :
    ∃ t, l = t ++ l.dropWhile p := by
  induction l with
  | nil => exact ⟨[], rfl⟩
  | cons a t ih =>
      by_cases ha : p a
      · rcases ih with ⟨u, hu⟩
        exact ⟨a :: u, by simp [List.dropWhile_cons, ha, ← hu]⟩
      · exact ⟨[], by simp [List.dropWhile_cons, ha]⟩

theorem dropWhile_head_false (p : Char → Bool) (a : Char) (t : List Char)
    (h : (a :: t).dropWhile p = a :: t) : p a = false := by
  have := List.dropWhile_eq_self_iff.mp h (by simp)
  simpa using this

theorem dropWhile_fixed_of_append (p : Char → Bool) (r s m : List Char)
    (hm : m.dropWhile p = m) (hr : r ++ s = m) : r.dropWhile p = r := by
  cases r with
  | nil => rfl
  | cons a t =>
      have : m = a :: (t ++ s) := by rw [← hr]; simp
      have hpa : p a = false := by
        apply dropWhile_head_false p a (t ++ s)
        rw [← this]
        exact hm
      simp [List.dropWhile_cons, hpa]

theorem trimChars_idem (l : List Char) :
    trimChars (trimChars l) = trimChars l := by
  set m := l.dropWhile jsWs with hm
  have hmc : m.dropWhile jsWs = m := dropWhile_idem jsWs l
  have hr : trimChars l = ((m.reverse.dropWhile jsWs).reverse : List Char) := rfl
  -- the trimmed list is a left part of `m`, hence still left-clean
  rcases exists_append_dropWhile jsWs m.reverse with ⟨t, ht⟩
  have hsplit : (m.reverse.dropWhile jsWs).reverse ++ t.reverse = m := by
    have := congrArg List.reverse ht
    simpa [List.reverse_append] using this.symm
  have hclean1 : ((m.reverse.dropWhile jsWs).reverse : List Char).dropWhile jsWs
      = (m.reverse.dropWhile jsWs).reverse :=
    dropWhile_fixed_of_append jsWs _ t.reverse m hmc hsplit
  have hclean2 : ((m.reverse.dropWhile jsWs).reverse : List Char).reverse.dropWhile jsWs
      = (m.reverse.dropWhile jsWs).reverse.reverse := by
    rw [List.reverse_reverse]
    exact dropWhile_idem jsWs m.reverse
  rw [hr]
  show ((((m.reverse.dropWhile jsWs).reverse).dropWhile
      jsWs).reverse.dropWhile jsWs).reverse = (m.reverse.dropWhile jsWs).reverse
  rw [hclean1, hclean2, List.reverse_reverse]

theorem jsTrim_idem (s : String) : jsTrim (jsTrim s) = jsTrim s := by
  show (⟨trimChars (jsTrim s).data⟩ : String) = jsTrim s
  have : (jsTrim s).data = trimChars s.data := rfl
  rw [this, trimChars_idem]
  rfl

theorem writeWinner_length (v : Row) (w r : String) :
    (writeWinner v w r).length = v.length := by
  simp [writeWinner]

theorem cell_writeWinner_ne (v : Row) (w r : String) (k : Nat) (h5 : k ≠ 5)
    (h6 : k ≠ 6) : cell (writeWinner v w r) k = cell v k := by
  unfold writeWinner cell
  rw [List.getD_eq_getElem?_getD, List.getElem?_set_ne (by omega : (6 : Nat) ≠ k),
    List.getElem?_set_ne (by omega : (5 : Nat) ≠ k),
    ← List.getD_eq_getElem?_getD]

theorem cell_writeWinner_5 (v : Row) (w r : String) (h : 5 < v.length) :
    cell (writeWinner v w r) 5 = w := by
  unfold writeWinner cell
  rw [List.getD_eq_getElem?_getD, List.getElem?_set_ne (by omega : (6 : Nat) ≠ 5),
    List.getElem?_set_eq_of_lt w h]
  rfl

theorem cell_writeWinner_6 (v : Row) (w r : String) (h : 6 < v.length) :
    cell (writeWinner v w r) 6 = r := by
  unfold writeWinner cell
  rw [List.getD_eq_getElem?_getD,
    List.getElem?_set_eq_of_lt r (by simpa using h)]
  rfl

/-- All facts `parseMatchupRow` guarantees about its output. -/
theorem parse_fields (v : Row) (p : MatchupRow)
    (hp : parseMatchupRow v = some p) :
    p.draftName = jsTrim (cell v 0) ∧ jsParseInt (cell v 1) = some p.round
    ∧ jsParseInt (cell v 2) = some p.matchNum ∧ p.p1 = jsTrim (cell v 3)
    ∧ p.p2 = jsTrim (cell v 4) ∧ p.winner = jsTrim (cell v 5)
    ∧ p.result = jsTrim (cell v 6) ∧ 7 ≤ v.length := by
  unfold parseMatchupRow at hp
  by_cases hlen : v.length < 7
  · rw [if_pos hlen] at hp; cases hp
  · rw [if_neg hlen] at hp
    rcases h1 : jsParseInt (cell v 1) with _ | rd <;> rw [h1] at hp
    · cases hp
    · rcases h2 : jsParseInt (cell v 2) with _ | mn <;> rw [h2] at hp
      · cases hp
      · rcases Option.some.inj hp with rfl
        refine ⟨rfl, rfl, rfl, rfl, rfl, rfl, rfl, by omega⟩

theorem parse_writeWinner (v : Row) (p : MatchupRow) (w r : String)
    (hp : parseMatchupRow v = some p) :
    parseMatchupRow (writeWinner v w r)
      = some { p with winner := jsTrim w, result := jsTrim r } := by
  have hf := parse_fields v p hp
  have hlen : 7 ≤ v.length := hf.2.2.2.2.2.2.2
  unfold parseMatchupRow
  rw [if_neg (by rw [writeWinner_length]; omega)]
  rw [cell_writeWinner_ne v w r 1 (by omega) (by omega),
    cell_writeWinner_ne v w r 2 (by omega) (by omega), hf.2.1, hf.2.2.1]
  rw [cell_writeWinner_ne v w r 0 (by omega) (by omega),
    cell_writeWinner_ne v w r 3 (by omega) (by omega),
    cell_writeWinner_ne v w r 4 (by omega) (by omega),
    cell_writeWinner_5 v w r (by omega), cell_writeWinner_6 v w r (by omega)]
  have h0 := hf.1
  have h3 := hf.2.2.2.1
  have h4 := hf.2.2.2.2.1
  simp [← h0, ← h3, ← h4]

theorem unorderedPairEq_left (x y : String) :
    unorderedPairEq x y x y = true := by
  simp [unorderedPairEq]

theorem unorderedPairEq_right (x y : String) :
    unorderedPairEq x y y x = true := by
  unfold unorderedPairEq
  by_cases h : x = y
  · subst h; simp
  · have hyx : ¬(y = x) := fun hc => h hc.symm
    simp [h, hyx]

theorem unorderedPairEq_elim {p1 p2 a b : String} (hab : a ≠ b)
    (h : unorderedPairEq p1 p2 a b = true) :
    (p1 = a ∧ p2 = b) ∨ (p1 = b ∧ p2 = a) := by
  simp only [unorderedPairEq, Bool.and_eq_true, Bool.or_eq_true,
    beq_iff_eq] at h
  obtain ⟨⟨hsz, h1⟩, h2⟩ := h
  rw [if_neg hab] at hsz
  have hp : p1 ≠ p2 := by
    intro hcon
    rw [if_pos hcon] at hsz
    simp at hsz
  rcases h1 with h1 | h1 <;> rcases h2 with h2 | h2
  · exact absurd (h1.trans h2.symm) hp
  · exact Or.inl ⟨h1, h2⟩
  · exact Or.inr ⟨h1, h2⟩
  · exact absurd (h1.trans h2.symm) hp

theorem rowMatchesReport_iff (pod w l : String) (v : Row) :
    rowMatchesReport pod w l v = true ↔
      7 ≤ v.length ∧ jsTrim (cell v 0) = pod ∧ jsTrim (cell v 5) = ""
      ∧ unorderedPairEq (jsTrim (cell v 3)) (jsTrim (cell v 4)) w l = true := by
  unfold rowMatchesReport
  simp only [Bool.and_eq_true, decide_eq_true_eq, beq_iff_eq, and_assoc]

/-- The per-row step of the shared row-collection loop, solved for a kept
row. -/
theorem rowFilter_eq_some (pod : String) (v : Row) (p : MatchupRow) :
    (match parseMatchupRow v with
      | some q => if jsToLower q.draftName == jsToLower pod then some q else none
      | none => none) = some p
    ↔ parseMatchupRow v = some p ∧ jsToLower p.draftName = jsToLower pod := by
  rcases hp : parseMatchupRow v with _ | q
  · simp
  · by_cases hc : jsToLower q.draftName = jsToLower pod
    · simp only [hc, beq_self_eq_true, if_true]
      constructor
      · intro h
        rcases Option.some.inj h with rfl
        exact ⟨rfl, hc⟩
      · intro h
        rw [h.1]
    · have hcb : (jsToLower q.draftName == jsToLower pod) = false := by
        simp [hc]
      simp only [hcb, Bool.false_eq_true, if_false]
      constructor
      · intro h; cases h
      · intro h
        rcases Option.some.inj h.1 with rfl
        exact absurd h.2 hc

theorem mem_matchupRowsFor (values : List Row) (pod : String) (p : MatchupRow) :
    p ∈ matchupRowsFor values pod ↔
      ∃ v ∈ values, parseMatchupRow v = some p
        ∧ jsToLower p.draftName = jsToLower pod := by
  simp only [matchupRowsFor, List.mem_filterMap, rowFilter_eq_some]

/-- Facts `PodWF` gives about every collected row of the pod. -/
theorem rows_facts (values : List Row) (pod : String) (hWF : PodWF values pod) :
    ∀ p ∈ matchupRowsFor values pod,
      p.draftName = pod ∧ canonicalNums p.round p.matchNum
      ∧ p.p1 ≠ "" ∧ p.p2 ≠ ""
      ∧ jsTrim p.p1 = p.p1 ∧ jsTrim p.p2 = p.p2 ∧ jsTrim p.winner = p.winner
      ∧ (p.winner ≠ "" → p.winner = p.p1 ∨ p.winner = p.p2) := by
  intro q hq
  obtain ⟨v, hv, hp, hlow⟩ := (mem_matchupRowsFor values pod q).mp hq
  have hf := parse_fields v q hp
  have hlowv : rowLowMatches pod v = true := by
    unfold rowLowMatches
    rw [← hf.1, hlow]
    simp
  obtain ⟨h1, h2, h3, h4, h5, h6, h7, h8, h9⟩ := hWF
  have hname : q.draftName = pod := by rw [hf.1]; exact h1 v hv hlowv
  obtain ⟨q2, hq2, hcan, hne1, hne2⟩ := h2 v hv hlowv
  rw [hp] at hq2
  rcases Option.some.inj hq2 with rfl
  refine ⟨hname, hcan, hne1, hne2, ?_, ?_, ?_, ?_⟩
  · rw [hf.2.2.2.1, jsTrim_idem]
  · rw [hf.2.2.2.2.1, jsTrim_idem]
  · rw [hf.2.2.2.2.2.1, jsTrim_idem]
  · intro hwne
    have hopen : rowOpen v = false := by
      unfold rowOpen
      rw [← hf.2.2.2.2.2.1]
      simp [hwne]
    have h7' := h7 v hv hlowv hopen
    rw [← hf.2.2.2.2.2.1, ← hf.2.2.2.1, ← hf.2.2.2.2.1] at h7'
    exact h7'

/-- `PodWF` transported to the collected rows: distinct match numbers, and
disjoint slots within a round. -/
theorem rows_pairwise (values : List Row) (pod : String) (hWF : PodWF values pod) :
    List.Pairwise (fun u v : MatchupRow =>
      u.matchNum ≠ v.matchNum ∧ (u.round = v.round → slotsDisjoint u v))
      (matchupRowsFor values pod) := by
  obtain ⟨h1, h2, h3, h4, h5, h6, h7, h8, h9⟩ := hWF
  have hp3 := (pairwiseB_iff _ values).mp h3
  have hp5 := (pairwiseB_iff _ values).mp h5
  have hcomb := hp5.and hp3
  unfold matchupRowsFor
  rw [List.pairwise_filterMap]
  refine hcomb.imp ?_
  intro u v huv
  obtain ⟨hb5, hb3⟩ := huv
  intro q hq q2 hq2
  rw [Option.mem_def, rowFilter_eq_some] at hq hq2
  obtain ⟨hpu, hlu⟩ := hq
  obtain ⟨hpv, hlv⟩ := hq2
  have hfu := parse_fields u q hpu
  have hfv := parse_fields v q2 hpv
  have hlowu : rowLowMatches pod u = true := by
    unfold rowLowMatches
    rw [← hfu.1, hlu]
    simp
  have hlowv : rowLowMatches pod v = true := by
    unfold rowLowMatches
    rw [← hfv.1, hlv]
    simp
  simp only [Bool.or_eq_true, Bool.not_eq_true', Bool.and_eq_true,
    bne_iff_ne, and_assoc] at hb5 hb3
  constructor
  · rcases hb5 with h | h
    · rw [hlowu, hlowv] at h; simp at h
    · rw [hfu.2.2.1, hfv.2.2.1] at h
      intro hcon
      exact h (by rw [hcon])
  · intro hreq
    rcases hb3 with h | h
    · rw [hlowu, hlowv] at h
      simp only [Bool.true_and] at h
      rw [hfu.2.1, hfv.2.1] at h
      rw [Bool.eq_false_iff] at h
      exact absurd (show (some q.round == some q2.round) = true by
        rw [hreq]; simp) h
    · obtain ⟨d1, d2, d3, d4⟩ := h
      rw [← hfu.2.2.2.1] at d1 d2
      rw [← hfu.2.2.2.2.1] at d3 d4
      rw [← hfv.2.2.2.1] at d1 d3
      rw [← hfv.2.2.2.2.1] at d2 d4
      exact ⟨d1, d2, d3, d4⟩

/-- `pairwiseB` survives a pointwise update whose relations to the other
entries are no stronger than those of the entry it replaces. -/
theorem pairwiseB_set {α : Type} (r : α → α → Bool) (l : List α) (i : Nat)
    (x d : α) (hi : i < l.length) (h : pairwiseB r l = true)
    (h1 : ∀ v, r (l.getD i d) v = true → r x v = true)
    (h2 : ∀ u, r u (l.getD i d) = true → r u x = true) :
    pairwiseB r (l.set i x) = true := by
  rw [pairwiseB_iff] at h ⊢
  rw [List.getD_eq_getElem l d hi] at h1 h2
  have hdec : l = l.take i ++ l[i] :: l.drop (i + 1) := by
    conv_lhs => rw [← List.take_append_drop i l]
    rw [List.getElem_cons_drop]
  rw [List.set_eq_take_append_cons_drop, if_pos hi]
  rw [hdec, List.pairwise_append, List.pairwise_cons] at h
  obtain ⟨hT, ⟨hgD, hD⟩, hcross⟩ := h
  rw [List.pairwise_append, List.pairwise_cons]
  refine ⟨hT, ⟨fun b hb => h1 b (hgD b hb), hD⟩, ?_⟩
  intro a ha b hb
  rcases List.mem_cons.mp hb with rfl | hb2
  · exact h2 a (hcross a ha _ (List.mem_cons_self _ _))
  · exact hcross a ha b (List.mem_cons_of_mem _ hb2)

/-- What a row found by `reportMatch`'s scan looks like, under `PodWF`. -/
theorem report_row_facts (values : List Row) (pod w l : String) (hwl : w ≠ l)
    (hWF : PodWF values pod) (v : Row) (hv : v ∈ values)
    (hm : rowMatchesReport pod w l v = true) :
    ∃ p, parseMatchupRow v = some p ∧ p.draftName = pod ∧ p.winner = ""
      ∧ canonicalNums p.round p.matchNum ∧ p.p1 ≠ "" ∧ p.p2 ≠ ""
      ∧ ((p.p1 = w ∧ p.p2 = l) ∨ (p.p1 = l ∧ p.p2 = w))
      ∧ jsTrim w = w ∧ w ≠ "" ∧ jsTrim l = l ∧ l ≠ "" := by
  obtain ⟨hm1, hm2, hm3, hm4⟩ := (rowMatchesReport_iff pod w l v).mp hm
  have hlowv : rowLowMatches pod v = true := by
    unfold rowLowMatches; rw [hm2]; simp
  obtain ⟨h1, h2, h3, h4, h5, h6, h7, h8, h9⟩ := hWF
  obtain ⟨p, hp, hcan, hne1, hne2⟩ := h2 v hv hlowv
  have hf := parse_fields v p hp
  have hwin : p.winner = "" := by rw [hf.2.2.2.2.2.1]; exact hm3
  have hpair : (p.p1 = w ∧ p.p2 = l) ∨ (p.p1 = l ∧ p.p2 = w) := by
    have h4' := hm4
    rw [← hf.2.2.2.1, ← hf.2.2.2.2.1] at h4'
    exact unorderedPairEq_elim hwl h4'
  have htp1 : jsTrim p.p1 = p.p1 := by rw [hf.2.2.2.1, jsTrim_idem]
  have htp2 : jsTrim p.p2 = p.p2 := by rw [hf.2.2.2.2.1, jsTrim_idem]
  refine ⟨p, hp, ?_, hwin, hcan, hne1, hne2, hpair, ?_, ?_, ?_, ?_⟩
  · rw [hf.1]; exact h1 v hv hlowv
  · rcases hpair with ⟨ha, -⟩ | ⟨-, hb⟩
    · rw [← ha]; exact htp1
    · rw [← hb]; exact htp2
  · rcases hpair with ⟨ha, -⟩ | ⟨-, hb⟩
    · rw [← ha]; exact hne1
    · rw [← hb]; exact hne2
  · rcases hpair with ⟨-, hb⟩ | ⟨ha, -⟩
    · rw [← hb]; exact htp2
    · rw [← ha]; exact htp1
  · rcases hpair with ⟨-, hb⟩ | ⟨ha, -⟩
    · rw [← hb]; exact hne2
    · rw [← ha]; exact hne1

/-- Writing winner / result into row `i` updates exactly the corresponding
collected row. -/
theorem rows_set_decomp (values : List Row) (pod : String) (i : Nat)
    (hi : i < values.length) (p : MatchupRow) (w res : String)
    (hparse : parseMatchupRow (values.getD i []) = some p)
    (hkeep : jsToLower p.draftName = jsToLower pod) :
    ∃ A B, matchupRowsFor values pod = A ++ p :: B
      ∧ matchupRowsFor (values.set i (writeWinner (values.getD i []) w res)) pod
          = A ++ { p with winner := jsTrim w, result := jsTrim res } :: B := by
  have hdec : values = values.take i ++ values.getD i [] :: values.drop (i + 1) := by
    rw [List.getD_eq_getElem values [] hi]
    conv_lhs => rw [← List.take_append_drop i values]
    rw [List.getElem_cons_drop]
  have hset : values.set i (writeWinner (values.getD i []) w res)
      = values.take i ++ writeWinner (values.getD i []) w res :: values.drop (i + 1) := by
    rw [List.set_eq_take_append_cons_drop, if_pos hi]
  have hsome : (match parseMatchupRow (values.getD i []) with
      | some q => if jsToLower q.draftName == jsToLower pod then some q else none
      | none => none) = some p := by
    rw [hparse]
    simp [hkeep]
  have hsome2 : (match parseMatchupRow (writeWinner (values.getD i []) w res) with
      | some q => if jsToLower q.draftName == jsToLower pod then some q else none
      | none => none)
      = some { p with winner := jsTrim w, result := jsTrim res } := by
    rw [parse_writeWinner _ p w res hparse]
    simp [hkeep]
  refine ⟨matchupRowsFor (values.take i) pod,
    matchupRowsFor (values.drop (i + 1)) pod, ?_, ?_⟩
  · conv_lhs => rw [hdec]
    simp only [matchupRowsFor, List.filterMap_append, List.filterMap_cons, hsome]
  · rw [hset]
    simp only [matchupRowsFor, List.filterMap_append, List.filterMap_cons, hsome2]

theorem roundRows_append_cons (A B : List MatchupRow) (p : MatchupRow) (n : Int) :
    roundRows (A ++ p :: B) n
      = roundRows A n ++ (if p.round = n then p :: roundRows B n else roundRows B n) := by
  by_cases h : p.round = n <;>
    simp [roundRows, List.filter_append, List.filter_cons, h]

theorem roundCompleteB_facts (rs : List MatchupRow)
    (h : roundCompleteB rs = true) :
    rs.length = 4 ∧ ∀ r ∈ rs, r.winner ≠ "" := by
  unfold roundCompleteB at h
  rw [Bool.and_eq_true] at h
  refine ⟨by simpa using h.1, ?_⟩
  intro r hr
  have h2 := h.2
  rw [List.all_eq_true] at h2
  simpa using h2 r hr

/-- Two rows that both satisfy `reportMatch`'s scan test violate the
open-pair-uniqueness relation of `PodWF`. -/
theorem report_rows_conflict (pod w l : String) (hwl : w ≠ l) (u v : Row)
    (hu : rowMatchesReport pod w l u = true)
    (hv : rowMatchesReport pod w l v = true) :
    (!(rowLowMatches pod u && rowLowMatches pod v && rowOpen u && rowOpen v)
      || !rowsSamePair u v) = false := by
  obtain ⟨hu1, hu2, hu3, hu4⟩ := (rowMatchesReport_iff pod w l u).mp hu
  obtain ⟨hv1, hv2, hv3, hv4⟩ := (rowMatchesReport_iff pod w l v).mp hv
  have hlu : rowLowMatches pod u = true := by
    unfold rowLowMatches; rw [hu2]; simp
  have hlv : rowLowMatches pod v = true := by
    unfold rowLowMatches; rw [hv2]; simp
  have hou : rowOpen u = true := by
    unfold rowOpen; rw [hu3]; simp
  have hov : rowOpen v = true := by
    unfold rowOpen; rw [hv3]; simp
  have hsp : rowsSamePair u v = true := by
    unfold rowsSamePair
    rcases unorderedPairEq_elim hwl hu4 with ⟨ha, hb⟩ | ⟨ha, hb⟩ <;>
      rcases unorderedPairEq_elim hwl hv4 with ⟨hc, hd⟩ | ⟨hc, hd⟩ <;>
      rw [ha, hb, hc, hd]
    · exact unorderedPairEq_left w l
    · exact unorderedPairEq_right w l
    · exact unorderedPairEq_right l w
    · exact unorderedPairEq_left l w
  rw [hlu, hlv, hou, hov, hsp]
  rfl

/-- After a successful report wrote the winner into the found row, no stored
row passes the scan test for the same pair again. -/
theorem writtenState_noMatch (values : List Row) (pod w l res : String)
    (hwl : w ≠ l) (i : Nat) (hi : i < values.length) (hWF : PodWF values pod)
    (hm : rowMatchesReport pod w l (values.getD i []) = true) :
    ∀ v ∈ values.set i (writeWinner (values.getD i []) w res),
      rowMatchesReport pod w l v = false := by
  have hvmem : values.getD i [] ∈ values := by
    rw [List.getD_eq_getElem values [] hi]; exact List.getElem_mem hi
  obtain ⟨p, hparse, hname, hpwin, hcanon, hp1ne, hp2ne, hpair, hwt, hwne, hlt, hlne⟩ :=
    report_row_facts values pod w l hwl hWF _ hvmem hm
  obtain ⟨hm1, hm2, hm3, hm4⟩ := (rowMatchesReport_iff pod w l _).mp hm
  obtain ⟨h1, h2, h3, h4, h5, h6, h7, h8, h9⟩ := hWF
  have hp6 := (pairwiseB_iff _ values).mp h6
  have hdec : values = values.take i ++ values.getD i [] :: values.drop (i + 1) := by
    rw [List.getD_eq_getElem values [] hi]
    conv_lhs => rw [← List.take_append_drop i values]
    rw [List.getElem_cons_drop]
  rw [hdec, List.pairwise_append, List.pairwise_cons] at hp6
  obtain ⟨hT, ⟨hgD, hD⟩, hcross⟩ := hp6
  have hset : values.set i (writeWinner (values.getD i []) w res)
      = values.take i ++ writeWinner (values.getD i []) w res :: values.drop (i + 1) := by
    rw [List.set_eq_take_append_cons_drop, if_pos hi]
  intro v hv
  rw [hset] at hv
  rcases List.mem_append.mp hv with hvT | hvC
  · cases hfv : rowMatchesReport pod w l v
    · rfl
    · exfalso
      have hrel := hcross v hvT (values.getD i []) (List.mem_cons_self _ _)
      have hfalse := report_rows_conflict pod w l hwl v (values.getD i []) hfv hm
      simp only [hfalse, Bool.false_eq_true] at hrel
  · rcases List.mem_cons.mp hvC with rfl | hvD
    · have hc5 : cell (writeWinner (values.getD i []) w res) 5 = w :=
        cell_writeWinner_5 _ w res (by omega)
      unfold rowMatchesReport
      rw [hc5, hwt]
      simp [hwne]
    · cases hfv : rowMatchesReport pod w l v
      · rfl
      · exfalso
        have hrel := hgD v hvD
        have hfalse := report_rows_conflict pod w l hwl (values.getD i []) v hm hfv
        simp only [hfalse, Bool.false_eq_true] at hrel

/-- Writing the winner of a found row preserves the pod well-formedness. -/
theorem report_write_WF (values : List Row) (pod w l res : String)
    (hwl : w ≠ l) (i : Nat) (hi : i < values.length) (hWF : PodWF values pod)
    (hm : rowMatchesReport pod w l (values.getD i []) = true) :
    PodWF (values.set i (writeWinner (values.getD i []) w res)) pod := by
  have hvmem : values.getD i [] ∈ values := by
    rw [List.getD_eq_getElem values [] hi]; exact List.getElem_mem hi
  obtain ⟨p, hparse, hname, hpwin, hcanon, hp1ne, hp2ne, hpair, hwt, hwne, hlt, hlne⟩ :=
    report_row_facts values pod w l hwl hWF _ hvmem hm
  obtain ⟨hm1, hm2, hm3, hm4⟩ := (rowMatchesReport_iff pod w l _).mp hm
  have hc0 : cell (writeWinner (values.getD i []) w res) 0 = cell (values.getD i []) 0 :=
    cell_writeWinner_ne _ w res 0 (by omega) (by omega)
  have hc1 : cell (writeWinner (values.getD i []) w res) 1 = cell (values.getD i []) 1 :=
    cell_writeWinner_ne _ w res 1 (by omega) (by omega)
  have hc2 : cell (writeWinner (values.getD i []) w res) 2 = cell (values.getD i []) 2 :=
    cell_writeWinner_ne _ w res 2 (by omega) (by omega)
  have hc3 : cell (writeWinner (values.getD i []) w res) 3 = cell (values.getD i []) 3 :=
    cell_writeWinner_ne _ w res 3 (by omega) (by omega)
  have hc4 : cell (writeWinner (values.getD i []) w res) 4 = cell (values.getD i []) 4 :=
    cell_writeWinner_ne _ w res 4 (by omega) (by omega)
  have hc5 : cell (writeWinner (values.getD i []) w res) 5 = w :=
    cell_writeWinner_5 _ w res (by omega)
  have hlowvi : rowLowMatches pod (values.getD i []) = true := by
    unfold rowLowMatches; rw [hm2]; simp
  have hfields := parse_fields _ p hparse
  obtain ⟨A, B, hst, hmdec⟩ := rows_set_decomp values pod i hi p w res hparse
    (by rw [hname])
  obtain ⟨h1, h2, h3, h4, h5, h6, h7, h8, h9⟩ := hWF
  refine ⟨?_, ?_, ?_, ?_, ?_, ?_, ?_, ?_, ?_⟩
  · intro v hv hlow
    rcases List.mem_or_eq_of_mem_set hv with hvv | rfl
    · exact h1 v hvv hlow
    · rw [hc0]; exact hm2
  · intro v hv hlow
    rcases List.mem_or_eq_of_mem_set hv with hvv | rfl
    · exact h2 v hvv hlow
    · exact ⟨{ p with winner := jsTrim w, result := jsTrim res },
        parse_writeWinner _ p w res hparse, hcanon, hp1ne, hp2ne⟩
  · refine pairwiseB_set _ values i _ [] hi h3 ?_ ?_
    · intro v hv
      simp only [rowLowMatches, hc0, hc1, hc3, hc4] at hv ⊢
      exact hv
    · intro u hu
      simp only [rowLowMatches, hc0, hc1, hc3, hc4] at hu ⊢
      exact hu
  · intro v hv hlow
    rcases List.mem_or_eq_of_mem_set hv with hvv | rfl
    · exact h4 v hvv hlow
    · rw [hc3, hc4]; exact h4 _ hvmem hlowvi
  · refine pairwiseB_set _ values i _ [] hi h5 ?_ ?_
    · intro v hv
      simp only [rowLowMatches, hc0, hc2] at hv ⊢
      exact hv
    · intro u hu
      simp only [rowLowMatches, hc0, hc2] at hu ⊢
      exact hu
  · have hopenw : rowOpen (writeWinner (values.getD i []) w res) = false := by
      unfold rowOpen; rw [hc5, hwt]; simp [hwne]
    refine pairwiseB_set _ values i _ [] hi h6 ?_ ?_
    · intro v _
      simp only [hopenw, Bool.and_false, Bool.false_and, Bool.not_false,
        Bool.true_or]
    · intro u _
      simp only [hopenw, Bool.and_false, Bool.not_false, Bool.true_or]
  · intro v hv hlow hopen
    rcases List.mem_or_eq_of_mem_set hv with hvv | rfl
    · exact h7 v hvv hlow hopen
    · rw [hc5, hc3, hc4, hwt]
      rcases hpair with ⟨ha, hb⟩ | ⟨ha, hb⟩
      · left; rw [← hfields.2.2.2.1]; exact ha.symm
      · right; rw [← hfields.2.2.2.2.1]; exact hb.symm
  · intro hempty
    have h8st := h8
    rw [hst, roundRows_append_cons, roundRows_append_cons] at h8st
    rw [hmdec, roundRows_append_cons] at hempty
    rw [hmdec, roundRows_append_cons]
    have hrr : ({ p with winner := jsTrim w, result := jsTrim res } : MatchupRow).round
        = p.round := rfl
    rw [hrr] at hempty ⊢
    rcases hcanon with ⟨hr, -⟩ | ⟨hr, -⟩ | ⟨hr, -⟩ <;> rw [hr] at hempty h8st ⊢
    · rw [if_neg (by norm_num)] at hempty
      rw [if_neg (by norm_num)]
      rw [if_neg (by norm_num), if_neg (by norm_num)] at h8st
      exact h8st hempty
    · rw [if_pos rfl] at hempty
      exact absurd hempty (by simp)
    · rw [if_neg (by norm_num)] at hempty
      rw [if_neg (by norm_num), if_pos rfl] at h8st
      exact absurd (h8st hempty) (by simp)
  · intro hne q hq
    have h9st := h9
    rw [hst, roundRows_append_cons, roundRows_append_cons] at h9st
    rw [hmdec, roundRows_append_cons] at hne hq
    have hrr : ({ p with winner := jsTrim w, result := jsTrim res } : MatchupRow).round
        = p.round := rfl
    rw [hrr] at hne hq
    rcases hcanon with ⟨hr, -⟩ | ⟨hr, -⟩ | ⟨hr, -⟩ <;> rw [hr] at hne hq h9st
    · rw [if_neg (by norm_num)] at hne
      rw [if_neg (by norm_num), if_pos rfl] at h9st
      rw [if_pos rfl] at hq
      have hconc := h9st hne
      rcases List.mem_append.mp hq with hqA | hqC
      · exact hconc q (List.mem_append_left _ hqA)
      · rcases List.mem_cons.mp hqC with rfl | hqB
        · show jsTrim w ≠ ""
          rw [hwt]; exact hwne
        · exact hconc q (List.mem_append_right _ (List.mem_cons_of_mem _ hqB))
    · rw [if_pos rfl, if_neg (by norm_num)] at h9st
      rw [if_neg (by norm_num)] at hq
      have hconc := h9st (by simp)
      rcases List.mem_append.mp hq with hqA | hqB
      · exact hconc q (List.mem_append_left _ hqA)
      · exact hconc q (List.mem_append_right _ hqB)
    · rw [if_neg (by norm_num), if_neg (by norm_num)] at h9st
      rw [if_neg (by norm_num)] at hne hq
      have hconc := h9st hne
      rcases List.mem_append.mp hq with hqA | hqB
      · exact hconc q (List.mem_append_left _ hqA)
      · exact hconc q (List.mem_append_right _ hqB)

/-- Four rows with distinct canonical match numbers in a window of four
values carry every number of the window. -/
theorem find_all_nums (rs : List MatchupRow) (lo : Int) (h4 : rs.length = 4)
    (hmem : ∀ r ∈ rs, lo ≤ r.matchNum ∧ r.matchNum ≤ lo + 3)
    (hnd : List.Pairwise (fun a b => a.matchNum ≠ b.matchNum) rs)
    (k : Int) (hk1 : lo ≤ k) (hk2 : k ≤ lo + 3) :
    ∃ m, rs.find? (fun r => r.matchNum == k) = some m := by
  have hmap : (rs.map (fun r => r.matchNum)).Nodup := (List.pairwise_map).mpr hnd
  have hcard : (rs.map (fun r => r.matchNum)).toFinset.card = 4 := by
    rw [List.toFinset_card_of_nodup hmap, List.length_map, h4]
  have hsub : (rs.map (fun r => r.matchNum)).toFinset ⊆ Finset.Icc lo (lo + 3) := by
    intro x hx
    rw [List.mem_toFinset, List.mem_map] at hx
    obtain ⟨r, hr, rfl⟩ := hx
    rw [Finset.mem_Icc]
    exact hmem r hr
  have hicc : (Finset.Icc lo (lo + 3)).card = 4 := by
    rw [Int.card_Icc]
    have h : lo + 3 + 1 - lo = 4 := by ring
    rw [h]
    rfl
  have heq : (rs.map (fun r => r.matchNum)).toFinset = Finset.Icc lo (lo + 3) :=
    Finset.eq_of_subset_of_card_le hsub (by rw [hcard, hicc])
  have hkmem : k ∈ (rs.map (fun r => r.matchNum)).toFinset := by
    rw [heq, Finset.mem_Icc]; exact ⟨hk1, hk2⟩
  rw [List.mem_toFinset, List.mem_map] at hkmem
  obtain ⟨r, hr, hrk⟩ := hkmem
  exact Option.isSome_iff_exists.mp
    (List.find?_isSome.mpr ⟨r, hr, by simp [hrk]⟩)

/-- Under `PodWF`, `createNextRoundIfReady` never hits a failing `find(...)!`
assertion: the modelled crash is unreachable. -/
theorem createNextRound_noCrash (values : List Row) (pod : String)
    (hWF : PodWF values pod) :
    ∃ bm, createNextRoundIfReady values pod false = some bm := by
  have hfacts := rows_facts values pod hWF
  have hPW := rows_pairwise values pod hWF
  by_cases hb1 : (roundCompleteB (roundRows (matchupRowsFor values pod) 1)
      && (roundRows (matchupRowsFor values pod) 2).isEmpty) = true
  · obtain ⟨hlen, -⟩ :=
      roundCompleteB_facts _ (by rw [Bool.and_eq_true] at hb1; exact hb1.1)
    have hmemb : ∀ r ∈ roundRows (matchupRowsFor values pod) 1,
        (1 : Int) ≤ r.matchNum ∧ r.matchNum ≤ 1 + 3 := by
      intro r hr
      simp only [roundRows] at hr
      have hmf := List.mem_filter.mp hr
      have hr1 : r.round = 1 := by simpa using hmf.2
      rcases (hfacts r hmf.1).2.1 with ⟨-, hb⟩ | ⟨hc, -⟩ | ⟨hc, -⟩ <;> omega
    have hnd : List.Pairwise (fun a b : MatchupRow => a.matchNum ≠ b.matchNum)
        (roundRows (matchupRowsFor values pod) 1) := by
      have hsub : (roundRows (matchupRowsFor values pod) 1).Sublist
          (matchupRowsFor values pod) := by
        simp only [roundRows]
        exact List.filter_sublist _
      exact (List.Pairwise.sublist hsub hPW).imp (fun h => h.1)
    obtain ⟨m1, hf1⟩ := find_all_nums _ 1 hlen hmemb hnd 1 (by norm_num) (by norm_num)
    obtain ⟨m2, hf2⟩ := find_all_nums _ 1 hlen hmemb hnd 2 (by norm_num) (by norm_num)
    obtain ⟨m3, hf3⟩ := find_all_nums _ 1 hlen hmemb hnd 3 (by norm_num) (by norm_num)
    obtain ⟨m4, hf4⟩ := find_all_nums _ 1 hlen hmemb hnd 4 (by norm_num) (by norm_num)
    refine ⟨(true, values ++
      [[pod, "2", "5", m1.winner, m2.winner, "", ""],
       [pod, "2", "6", m3.winner, m4.winner, "", ""],
       [pod, "2", "7", getLoser m1, getLoser m2, "", ""],
       [pod, "2", "8", getLoser m3, getLoser m4, "", ""]]), ?_⟩
    rw [createNextRoundIfReady]
    rw [if_pos hb1]
    simp [buildRound2Rows, hf1, hf2, hf3, hf4]
  · by_cases hb2 : (roundCompleteB (roundRows (matchupRowsFor values pod) 2)
        && (roundRows (matchupRowsFor values pod) 3).isEmpty) = true
    · obtain ⟨hlen, -⟩ :=
        roundCompleteB_facts _ (by rw [Bool.and_eq_true] at hb2; exact hb2.1)
      have hmemb : ∀ r ∈ roundRows (matchupRowsFor values pod) 2,
          (5 : Int) ≤ r.matchNum ∧ r.matchNum ≤ 5 + 3 := by
        intro r hr
        simp only [roundRows] at hr
        have hmf := List.mem_filter.mp hr
        have hr2 : r.round = 2 := by simpa using hmf.2
        rcases (hfacts r hmf.1).2.1 with ⟨hc, -⟩ | ⟨-, hb⟩ | ⟨hc, -⟩ <;> omega
      have hnd : List.Pairwise (fun a b : MatchupRow => a.matchNum ≠ b.matchNum)
          (roundRows (matchupRowsFor values pod) 2) := by
        have hsub : (roundRows (matchupRowsFor values pod) 2).Sublist
            (matchupRowsFor values pod) := by
          simp only [roundRows]
          exact List.filter_sublist _
        exact (List.Pairwise.sublist hsub hPW).imp (fun h => h.1)
      obtain ⟨m5, hf5⟩ := find_all_nums _ 5 hlen hmemb hnd 5 (by norm_num) (by norm_num)
      obtain ⟨m6, hf6⟩ := find_all_nums _ 5 hlen hmemb hnd 6 (by norm_num) (by norm_num)
      obtain ⟨m7, hf7⟩ := find_all_nums _ 5 hlen hmemb hnd 7 (by norm_num) (by norm_num)
      obtain ⟨m8, hf8⟩ := find_all_nums _ 5 hlen hmemb hnd 8 (by norm_num) (by norm_num)
      refine ⟨(true, values ++
        [[pod, "3", "9", m5.winner, m6.winner, "", ""],
         [pod, "3", "10", m7.winner, m8.winner, "", ""],
         [pod, "3", "11", getLoser m5, getLoser m6, "", ""],
         [pod, "3", "12", getLoser m7, getLoser m8, "", ""]]), ?_⟩
      rw [createNextRoundIfReady]
      rw [if_neg hb1, if_pos hb2]
      simp [buildRound3Rows, hf5, hf6, hf7, hf8]
    · refine ⟨(false, values), ?_⟩
      rw [createNextRoundIfReady]
      rw [if_neg hb1, if_neg hb2]

/-- In a round with pairwise-disjoint slots, a shared player identifies the
row. -/
theorem slots_shared (L : List MatchupRow)
    (hPW : List.Pairwise
      (fun u v => u.matchNum ≠ v.matchNum ∧ slotsDisjoint u v) L)
    (ma mb : MatchupRow) (hma : ma ∈ L) (hmb : mb ∈ L) (x : String)
    (hx : x = ma.p1 ∨ x = ma.p2) (hy : x = mb.p1 ∨ x = mb.p2) : ma = mb := by
  obtain ⟨j, hj, hje⟩ := List.mem_iff_getElem.mp hma
  obtain ⟨k, hk, hke⟩ := List.mem_iff_getElem.mp hmb
  rcases Nat.lt_trichotomy j k with hlt | heq | hgt
  · have hrel := (List.pairwise_iff_getElem.mp hPW) j k hj hk hlt
    rw [hje, hke] at hrel
    exfalso
    obtain ⟨-, d1, d2, d3, d4⟩ := hrel
    rcases hx with rfl | rfl <;> rcases hy with h | h
    · exact d1 h
    · exact d2 h
    · exact d3 h
    · exact d4 h
  · subst heq
    rw [← hje, ← hke]
  · have hrel := (List.pairwise_iff_getElem.mp hPW) k j hk hj hgt
    rw [hje, hke] at hrel
    exfalso
    obtain ⟨-, d1, d2, d3, d4⟩ := hrel
    rcases hx with rfl | rfl <;> rcases hy with h | h
    · exact d1 h.symm
    · exact d3 h.symm
    · exact d2 h.symm
    · exact d4 h.symm

/-- A pair drawn from two different matches of a slot-disjoint round can
never equal the reported pair, whose players both sit in one match. -/
theorem newSlot_pair_false (w l : String) (hwl : w ≠ l)
    (L : List MatchupRow)
    (hPW : List.Pairwise
      (fun u v => u.matchNum ≠ v.matchNum ∧ slotsDisjoint u v) L)
    (pI ma mb : MatchupRow) (hpI : pI ∈ L) (hma : ma ∈ L) (hmb : mb ∈ L)
    (hab : ma.matchNum ≠ mb.matchNum)
    (hw : w = pI.p1 ∨ w = pI.p2) (hl : l = pI.p1 ∨ l = pI.p2)
    (x y : String) (hx : x = ma.p1 ∨ x = ma.p2) (hy : y = mb.p1 ∨ y = mb.p2) :
    unorderedPairEq x y w l = false := by
  cases hb : unorderedPairEq x y w l
  · rfl
  · exfalso
    rcases unorderedPairEq_elim hwl hb with ⟨hxw, hyl⟩ | ⟨hxl, hyw⟩
    · have h1 : ma = pI := slots_shared L hPW ma pI hma hpI x hx
        (by rw [hxw]; exact hw)
      have h2 : mb = pI := slots_shared L hPW mb pI hmb hpI y hy
        (by rw [hyl]; exact hl)
      exact hab (by rw [h1, h2])
    · have h1 : ma = pI := slots_shared L hPW ma pI hma hpI x hx
        (by rw [hxl]; exact hl)
      have h2 : mb = pI := slots_shared L hPW mb pI hmb hpI y hy
        (by rw [hyw]; exact hw)
      exact hab (by rw [h1, h2])

/-- A freshly synthesized row fails `reportMatch`'s scan test as soon as its
pair does. -/
theorem rowMatchesReport_newRow (pod w l n m x y : String)
    (hpair : unorderedPairEq (jsTrim x) (jsTrim y) w l = false) :
    rowMatchesReport pod w l [pod, n, m, x, y, "", ""] = false := by
  unfold rowMatchesReport
  have h3 : cell [pod, n, m, x, y, "", ""] 3 = x := rfl
  have h4 : cell [pod, n, m, x, y, "", ""] 4 = y := rfl
  rw [h3, h4, hpair, Bool.and_false]

/-- No row synthesized by `buildRound2Rows` from a complete slot-disjoint
round containing the reported match passes the scan test for the reported
pair. -/
theorem round2Rows_noMatch (pod w l : String) (hwl : w ≠ l)
    (rs : List MatchupRow) (pI : MatchupRow)
    (hPW : List.Pairwise
      (fun u v => u.matchNum ≠ v.matchNum ∧ slotsDisjoint u v) rs)
    (htw : ∀ r ∈ rs, jsTrim r.winner = r.winner)
    (hts : ∀ r ∈ rs, jsTrim r.p1 = r.p1 ∧ jsTrim r.p2 = r.p2)
    (hwm : ∀ r ∈ rs, r.winner ≠ "" → r.winner = r.p1 ∨ r.winner = r.p2)
    (hall : ∀ r ∈ rs, r.winner ≠ "")
    (hpI : pI ∈ rs) (hw : w = pI.p1 ∨ w = pI.p2) (hl : l = pI.p1 ∨ l = pI.p2)
    (nr : List Row) (hnr : buildRound2Rows pod rs = some nr) :
    ∀ v ∈ nr, rowMatchesReport pod w l v = false := by
  obtain ⟨m1, hf1⟩ : ∃ m, rs.find? (fun r => r.matchNum == 1) = some m := by
    rcases h : rs.find? (fun r => r.matchNum == 1) with _ | m
    · simp [buildRound2Rows, h] at hnr
    · exact ⟨m, h⟩
  obtain ⟨m2, hf2⟩ : ∃ m, rs.find? (fun r => r.matchNum == 2) = some m := by
    rcases h : rs.find? (fun r => r.matchNum == 2) with _ | m
    · simp [buildRound2Rows, h] at hnr
    · exact ⟨m, h⟩
  obtain ⟨m3, hf3⟩ : ∃ m, rs.find? (fun r => r.matchNum == 3) = some m := by
    rcases h : rs.find? (fun r => r.matchNum == 3) with _ | m
    · simp [buildRound2Rows, h] at hnr
    · exact ⟨m, h⟩
  obtain ⟨m4, hf4⟩ : ∃ m, rs.find? (fun r => r.matchNum == 4) = some m := by
    rcases h : rs.find? (fun r => r.matchNum == 4) with _ | m
    · simp [buildRound2Rows, h] at hnr
    · exact ⟨m, h⟩
  have hbuild : buildRound2Rows pod rs
      = some [[pod, "2", "5", m1.winner, m2.winner, "", ""],
        [pod, "2", "6", m3.winner, m4.winner, "", ""],
        [pod, "2", "7", getLoser m1, getLoser m2, "", ""],
        [pod, "2", "8", getLoser m3, getLoser m4, "", ""]] := by
    simp [buildRound2Rows, hf1, hf2, hf3, hf4]
  rw [hbuild] at hnr
  have hnr2 : nr = [[pod, "2", "5", m1.winner, m2.winner, "", ""],
      [pod, "2", "6", m3.winner, m4.winner, "", ""],
      [pod, "2", "7", getLoser m1, getLoser m2, "", ""],
      [pod, "2", "8", getLoser m3, getLoser m4, "", ""]] :=
    (Option.some.inj hnr).symm
  subst hnr2
  have hm1mem := List.mem_of_find?_eq_some hf1
  have hm2mem := List.mem_of_find?_eq_some hf2
  have hm3mem := List.mem_of_find?_eq_some hf3
  have hm4mem := List.mem_of_find?_eq_some hf4
  have hn1 : m1.matchNum = 1 := by simpa using List.find?_some hf1
  have hn2 : m2.matchNum = 2 := by simpa using List.find?_some hf2
  have hn3 : m3.matchNum = 3 := by simpa using List.find?_some hf3
  have hn4 : m4.matchNum = 4 := by simpa using List.find?_some hf4
  have hlslot : ∀ m, m ∈ rs → (getLoser m = m.p1 ∨ getLoser m = m.p2) := by
    intro m hm
    unfold getLoser
    by_cases h : m.winner = m.p1
    · rw [if_pos h]; right; rfl
    · rw [if_neg h]; left; rfl
  have hwslot : ∀ m, m ∈ rs → (m.winner = m.p1 ∨ m.winner = m.p2) :=
    fun m hm => hwm m hm (hall m hm)
  have htl : ∀ m, m ∈ rs → jsTrim (getLoser m) = getLoser m := by
    intro m hm
    rcases hlslot m hm with h | h <;> rw [h]
    · exact (hts m hm).1
    · exact (hts m hm).2
  have hcore : ∀ ma mb : MatchupRow, ma ∈ rs → mb ∈ rs →
      ma.matchNum ≠ mb.matchNum → ∀ x y : String,
      (x = ma.p1 ∨ x = ma.p2) → (y = mb.p1 ∨ y = mb.p2) →
      jsTrim x = x → jsTrim y = y → ∀ n m : String,
      rowMatchesReport pod w l [pod, n, m, x, y, "", ""] = false := by
    intro ma mb hma hmb hab x y hx hy htx hty n m
    apply rowMatchesReport_newRow
    rw [htx, hty]
    exact newSlot_pair_false w l hwl rs hPW pI ma mb hpI hma hmb hab hw hl
      x y hx hy
  intro v hv
  simp only [List.mem_cons, List.not_mem_nil, or_false] at hv
  rcases hv with rfl | rfl | rfl | rfl
  · exact hcore m1 m2 hm1mem hm2mem (by rw [hn1, hn2]; decide)
      m1.winner m2.winner (hwslot m1 hm1mem) (hwslot m2 hm2mem)
      (htw m1 hm1mem) (htw m2 hm2mem) "2" "5"
  · exact hcore m3 m4 hm3mem hm4mem (by rw [hn3, hn4]; decide)
      m3.winner m4.winner (hwslot m3 hm3mem) (hwslot m4 hm4mem)
      (htw m3 hm3mem) (htw m4 hm4mem) "2" "6"
  · exact hcore m1 m2 hm1mem hm2mem (by rw [hn1, hn2]; decide)
      (getLoser m1) (getLoser m2) (hlslot m1 hm1mem) (hlslot m2 hm2mem)
      (htl m1 hm1mem) (htl m2 hm2mem) "2" "7"
  · exact hcore m3 m4 hm3mem hm4mem (by rw [hn3, hn4]; decide)
      (getLoser m3) (getLoser m4) (hlslot m3 hm3mem) (hlslot m4 hm4mem)
      (htl m3 hm3mem) (htl m4 hm4mem) "2" "8"

/-- `buildRound3Rows` analogue of `round2Rows_noMatch`. -/
theorem round3Rows_noMatch (pod w l : String) (hwl : w ≠ l)
    (rs : List MatchupRow) (pI : MatchupRow)
    (hPW : List.Pairwise
      (fun u v => u.matchNum ≠ v.matchNum ∧ slotsDisjoint u v) rs)
    (htw : ∀ r ∈ rs, jsTrim r.winner = r.winner)
    (hts : ∀ r ∈ rs, jsTrim r.p1 = r.p1 ∧ jsTrim r.p2 = r.p2)
    (hwm : ∀ r ∈ rs, r.winner ≠ "" → r.winner = r.p1 ∨ r.winner = r.p2)
    (hall : ∀ r ∈ rs, r.winner ≠ "")
    (hpI : pI ∈ rs) (hw : w = pI.p1 ∨ w = pI.p2) (hl : l = pI.p1 ∨ l = pI.p2)
    (nr : List Row) (hnr : buildRound3Rows pod rs = some nr) :
    ∀ v ∈ nr, rowMatchesReport pod w l v = false := by
  obtain ⟨m5, hf5⟩ : ∃ m, rs.find? (fun r => r.matchNum == 5) = some m := by
    rcases h : rs.find? (fun r => r.matchNum == 5) with _ | m
    · simp [buildRound3Rows, h] at hnr
    · exact ⟨m, h⟩
  obtain ⟨m6, hf6⟩ : ∃ m, rs.find? (fun r => r.matchNum == 6) = some m := by
    rcases h : rs.find? (fun r => r.matchNum == 6) with _ | m
    · simp [buildRound3Rows, h] at hnr
    · exact ⟨m, h⟩
  obtain ⟨m7, hf7⟩ : ∃ m, rs.find? (fun r => r.matchNum == 7) = some m := by
    rcases h : rs.find? (fun r => r.matchNum == 7) with _ | m
    · simp [buildRound3Rows, h] at hnr
    · exact ⟨m, h⟩
  obtain ⟨m8, hf8⟩ : ∃ m, rs.find? (fun r => r.matchNum == 8) = some m := by
    rcases h : rs.find? (fun r => r.matchNum == 8) with _ | m
    · simp [buildRound3Rows, h] at hnr
    · exact ⟨m, h⟩
  have hbuild : buildRound3Rows pod rs
      = some [[pod, "3", "9", m5.winner, m6.winner, "", ""],
        [pod, "3", "10", m7.winner, m8.winner, "", ""],
        [pod, "3", "11", getLoser m5, getLoser m6, "", ""],
        [pod, "3", "12", getLoser m7, getLoser m8, "", ""]] := by
    simp [buildRound3Rows, hf5, hf6, hf7, hf8]
  rw [hbuild] at hnr
  have hnr2 : nr = [[pod, "3", "9", m5.winner, m6.winner, "", ""],
      [pod, "3", "10", m7.winner, m8.winner, "", ""],
      [pod, "3", "11", getLoser m5, getLoser m6, "", ""],
      [pod, "3", "12", getLoser m7, getLoser m8, "", ""]] :=
    (Option.some.inj hnr).symm
  subst hnr2
  have hm5mem := List.mem_of_find?_eq_some hf5
  have hm6mem := List.mem_of_find?_eq_some hf6
  have hm7mem := List.mem_of_find?_eq_some hf7
  have hm8mem := List.mem_of_find?_eq_some hf8
  have hn5 : m5.matchNum = 5 := by simpa using List.find?_some hf5
  have hn6 : m6.matchNum = 6 := by simpa using List.find?_some hf6
  have hn7 : m7.matchNum = 7 := by simpa using List.find?_some hf7
  have hn8 : m8.matchNum = 8 := by simpa using List.find?_some hf8
  have hlslot : ∀ m, m ∈ rs → (getLoser m = m.p1 ∨ getLoser m = m.p2) := by
    intro m hm
    unfold getLoser
    by_cases h : m.winner = m.p1
    · rw [if_pos h]; right; rfl
    · rw [if_neg h]; left; rfl
  have hwslot : ∀ m, m ∈ rs → (m.winner = m.p1 ∨ m.winner = m.p2) :=
    fun m hm => hwm m hm (hall m hm)
  have htl : ∀ m, m ∈ rs → jsTrim (getLoser m) = getLoser m := by
    intro m hm
    rcases hlslot m hm with h | h <;> rw [h]
    · exact (hts m hm).1
    · exact (hts m hm).2
  have hcore : ∀ ma mb : MatchupRow, ma ∈ rs → mb ∈ rs →
      ma.matchNum ≠ mb.matchNum → ∀ x y : String,
      (x = ma.p1 ∨ x = ma.p2) → (y = mb.p1 ∨ y = mb.p2) →
      jsTrim x = x → jsTrim y = y → ∀ n m : String,
      rowMatchesReport pod w l [pod, n, m, x, y, "", ""] = false := by
    intro ma mb hma hmb hab x y hx hy htx hty n m
    apply rowMatchesReport_newRow
    rw [htx, hty]
    exact newSlot_pair_false w l hwl rs hPW pI ma mb hpI hma hmb hab hw hl
      x y hx hy
  intro v hv
  simp only [List.mem_cons, List.not_mem_nil, or_false] at hv
  rcases hv with rfl | rfl | rfl | rfl
  · exact hcore m5 m6 hm5mem hm6mem (by rw [hn5, hn6]; decide)
      m5.winner m6.winner (hwslot m5 hm5mem) (hwslot m6 hm6mem)
      (htw m5 hm5mem) (htw m6 hm6mem) "3" "9"
  · exact hcore m7 m8 hm7mem hm8mem (by rw [hn7, hn8]; decide)
      m7.winner m8.winner (hwslot m7 hm7mem) (hwslot m8 hm8mem)
      (htw m7 hm7mem) (htw m8 hm8mem) "3" "10"
  · exact hcore m5 m6 hm5mem hm6mem (by rw [hn5, hn6]; decide)
      (getLoser m5) (getLoser m6) (hlslot m5 hm5mem) (hlslot m6 hm6mem)
      (htl m5 hm5mem) (htl m6 hm6mem) "3" "11"
  · exact hcore m7 m8 hm7mem hm8mem (by rw [hn7, hn8]; decide)
      (getLoser m7) (getLoser m8) (hlslot m7 hm7mem) (hlslot m8 hm8mem)
      (htl m7 hm7mem) (htl m8 hm8mem) "3" "12"

/-! ## C7: one armed timer per participant -/

theorem armedFlag_cons (armed : List Nat) (n : Nat) (o : Option Nat)
    (h : ∀ t, o = some t → t ≠ n) :
    armedFlag (n :: armed) o = armedFlag armed o := by
  cases o with
  | none => rfl
  | some t =>
      have ht := h t rfl
      simp [armedFlag, List.mem_cons, ht]

theorem armedFlag_filter_le (armed : List Nat) (f : Nat → Bool)
    (o : Option Nat) : armedFlag (armed.filter f) o ≤ armedFlag armed o := by
  cases o with
  | none => exact le_refl _
  | some t =>
      by_cases hm : t ∈ armed.filter f
      · have : t ∈ armed := (List.mem_filter.mp hm).1
        simp [armedFlag, hm, this]
      · simp [armedFlag, hm]

theorem armedCount_cons_of_below (armed : List Nat) (n : Nat) (p : PlayerInfo)
    (h : idsBelow p n) : armedCount (n :: armed) p = armedCount armed p := by
  unfold armedCount
  rw [armedFlag_cons armed n p.reminderTimerId
      (fun t ht => Nat.ne_of_lt (h.1 t ht)),
    armedFlag_cons armed n p.queueTimeoutTimerId
      (fun t ht => Nat.ne_of_lt (h.2 t ht))]

theorem armedCount_filter_le (armed : List Nat) (f : Nat → Bool)
    (p : PlayerInfo) : armedCount (armed.filter f) p ≤ armedCount armed p :=
  Nat.add_le_add (armedFlag_filter_le ..) (armedFlag_filter_le ..)

theorem idsBelow_mono {p : PlayerInfo} {m n : Nat} (h : idsBelow p m)
    (hmn : m ≤ n) : idsBelow p n :=
  ⟨fun t ht => lt_of_lt_of_le (h.1 t ht) hmn,
   fun t ht => lt_of_lt_of_le (h.2 t ht) hmn⟩

/-- The fresh participant record armed by `addPlayerToDraft`. -/
theorem addPlayer_info_spec (newId : Nat) (hours : Option Int) :
    (if validHours hours then
        ({ reminderTimerId := none, queueTimeoutTimerId := some newId } : PlayerInfo)
      else
        { reminderTimerId := some newId, queueTimeoutTimerId := none }).reminderTimerId
      = (if validHours hours then none else some newId)
    ∧ (if validHours hours then
        ({ reminderTimerId := none, queueTimeoutTimerId := some newId } : PlayerInfo)
      else
        { reminderTimerId := some newId, queueTimeoutTimerId := none }).queueTimeoutTimerId
      = (if validHours hours then some newId else none) := by
  by_cases h : validHours hours <;> simp [h]

/-- **C7.** Joining arms exactly one timer — the queue-expiry timer exactly
when `expiryHours` lies in 1-12, the inactivity reminder otherwise — and
preserves the one-armed-timer invariant; leaving cancels every armed timer of
the leaving participant, removes the record, and preserves the invariant. -/
theorem timer_exclusivity (w : World) (hInv : TimerInv w) :
    (∀ name uid hours,
      TimerInv (addPlayerToDraft w name uid hours).1
      ∧ ((addPlayerToDraft w name uid hours).2 = true →
          ∃ p : PlayerInfo,
            alistGet ((alistGet (addPlayerToDraft w name uid hours).1.drafts
              name).getD []) uid = some p
            ∧ (validHours hours = true →
                p.queueTimeoutTimerId = some w.nextTimer
                ∧ p.reminderTimerId = none)
            ∧ (validHours hours = false →
                p.reminderTimerId = some w.nextTimer
                ∧ p.queueTimeoutTimerId = none)
            ∧ armedCount (addPlayerToDraft w name uid hours).1.armed p = 1))
    ∧ (∀ name uid q p,
        alistGet w.drafts name = some q → alistGet q uid = some p →
        (∀ t, p.reminderTimerId = some t →
            t ∉ (leaveDraft w name uid).1.armed)
        ∧ (∀ t, p.queueTimeoutTimerId = some t →
            t ∉ (leaveDraft w name uid).1.armed)
        ∧ alistGet ((alistGet (leaveDraft w name uid).1.drafts name).getD [])
            uid = none)
    ∧ (∀ name uid, TimerInv (leaveDraft w name uid).1) := by
  refine ⟨?_, ?_, ?_⟩
  · intro name uid hours
    by_cases hmem : ((((alistGet w.drafts name).getD []).find?
        fun kv => kv.1 == uid).isSome : Prop)
    · constructor
      · simpa [addPlayerToDraft, hmem] using hInv
      · intro hadded
        simp [addPlayerToDraft, hmem] at hadded
    · -- the participant is inserted with exactly one fresh armed timer
      have hfind : (((alistGet w.drafts name).getD []).find?
          fun kv => kv.1 == uid) = none :=
        Option.not_isSome_iff_eq_none.mp (by simpa using hmem)
      have hqget : alistGet ((alistGet w.drafts name).getD []) uid = none := by
        show ((((alistGet w.drafts name).getD []).find?
          fun kv => kv.1 == uid)).map (fun kv => kv.2) = none
        rw [hfind]
        rfl
      set info : PlayerInfo :=
        if validHours hours then
          { reminderTimerId := none, queueTimeoutTimerId := some w.nextTimer }
        else
          { reminderTimerId := some w.nextTimer, queueTimeoutTimerId := none }
        with hinfo
      have hinfo_below : idsBelow info (w.nextTimer + 1) := by
        by_cases hv : validHours hours <;>
          simp [hinfo, hv, idsBelow, Nat.lt_succ_iff]
      have hinfo_count :
          armedCount (w.nextTimer :: w.armed) info = 1 := by
        by_cases hv : validHours hours <;>
          simp [hinfo, hv, armedCount, armedFlag, List.mem_cons]
      have hq'mem : ∀ up : String × PlayerInfo,
          up ∈ ((alistGet w.drafts name).getD []) ++ [(uid, info)] →
          armedCount (w.nextTimer :: w.armed) up.2 ≤ 1
          ∧ idsBelow up.2 (w.nextTimer + 1) := by
        intro up hup
        rcases List.mem_append.mp hup with hup | hup
        · rcases hq : alistGet w.drafts name with _ | q
          · rw [hq] at hup; cases hup
          · rw [hq] at hup
            have hmemq : (name, q) ∈ w.drafts := alistGet_mem hq
            have := hInv (name, q) hmemq up (by simpa using hup)
            exact ⟨by rw [armedCount_cons_of_below _ _ _
                (idsBelow_mono this.2 (Nat.le_refl _))]; exact this.1,
              idsBelow_mono this.2 (Nat.le_succ _)⟩
        · rcases List.mem_singleton.mp hup with rfl
          exact ⟨le_of_eq hinfo_count, hinfo_below⟩
      constructor
      · -- invariant after the join
        intro kq hkq up hup
        rcases hq : alistGet w.drafts name with _ | q
        · -- fresh queue: drafts' = drafts ++ [(name, [(uid, info)])]
          have hworld : (addPlayerToDraft w name uid hours).1
              = { w with
                  drafts := w.drafts ++ [(name, [(uid, info)])]
                  armed := w.nextTimer :: w.armed
                  nextTimer := w.nextTimer + 1 } := by
            simp [addPlayerToDraft, hmem, hinfo, hq]
          rw [hworld] at hkq
          rw [hworld]
          rcases List.mem_append.mp hkq with hkq | hkq
          · have := hInv kq hkq up hup
            exact ⟨by rw [armedCount_cons_of_below _ _ _ this.2]; exact this.1,
              idsBelow_mono this.2 (Nat.le_succ _)⟩
          · rcases List.mem_singleton.mp hkq with rfl
            rcases List.mem_singleton.mp hup with rfl
            exact ⟨le_of_eq hinfo_count, hinfo_below⟩
        · -- existing queue: drafts' = alistSet drafts name (q ++ [(uid, info)])
          have hsome : (alistGet w.drafts name).isSome = true := by rw [hq]; rfl
          have hworld : (addPlayerToDraft w name uid hours).1
              = { w with
                  drafts := alistSet w.drafts name
                    (((alistGet w.drafts name).getD []) ++ [(uid, info)])
                  armed := w.nextTimer :: w.armed
                  nextTimer := w.nextTimer + 1 } := by
            simp only [addPlayerToDraft, hfind, Option.isSome_none,
              Bool.false_eq_true, if_false, hsome, if_true, hinfo]
          rw [hworld] at hkq
          rw [hworld]
          rcases mem_alistSet hkq with hkq | hkq
          · subst hkq
            exact hq'mem up hup
          · have := hInv kq hkq up hup
            exact ⟨by rw [armedCount_cons_of_below _ _ _ this.2]; exact this.1,
              idsBelow_mono this.2 (Nat.le_succ _)⟩
      · -- the fresh record and its single armed timer
        intro _
        refine ⟨info, ?_, ?_, ?_, ?_⟩
        · rcases hq : alistGet w.drafts name with _ | q
          · have : alistGet (w.drafts ++ [(name, [(uid, info)])]) name
                = some [(uid, info)] := alistGet_append_single _ _ _ hq
            simp [addPlayerToDraft, hmem, hinfo, hq, this, alistGet_cons]
          · have hsome : (alistGet w.drafts name).isSome = true := by
              rw [hq]; rfl
            have hworld : (addPlayerToDraft w name uid hours).1
                = { w with
                    drafts := alistSet w.drafts name
                      (((alistGet w.drafts name).getD []) ++ [(uid, info)])
                    armed := w.nextTimer :: w.armed
                    nextTimer := w.nextTimer + 1 } := by
              simp only [addPlayerToDraft, hfind, Option.isSome_none,
                Bool.false_eq_true, if_false, hsome, if_true, hinfo]
            rw [hworld]
            have hset : alistGet (alistSet w.drafts name
                (((alistGet w.drafts name).getD []) ++ [(uid, info)])) name
                = some (((alistGet w.drafts name).getD []) ++ [(uid, info)]) :=
              alistGet_alistSet_self _ _ _ q hq
            simp only [hset, Option.getD_some]
            exact alistGet_append_single _ _ info hqget
        · intro hv; simp [hinfo, hv]
        · intro hv; simp [hinfo, hv]
        · have : (addPlayerToDraft w name uid hours).1.armed
              = w.nextTimer :: w.armed := by
            rcases hq : alistGet w.drafts name with _ | q
            · simp [addPlayerToDraft, hq]
            · have hsome : (alistGet w.drafts name).isSome = true := by
                rw [hq]; rfl
              simp only [addPlayerToDraft, hfind, Option.isSome_none,
                Bool.false_eq_true, if_false, hsome, if_true]
          rw [this, hinfo_count]
  · intro name uid q p hq hp
    rcases Option.map_eq_some'.mp hp with ⟨kv, hfind, hkv⟩
    have hleave : (leaveDraft w name uid).1
        = { w with drafts := alistSet w.drafts name (alistDel q uid),
                   armed := cancelIds w.armed p } := by
      simp [leaveDraft, hq, hfind, hkv]
    refine ⟨?_, ?_, ?_⟩
    · intro t ht hmem
      rw [hleave] at hmem
      have := (List.mem_filter.mp hmem).2
      simp [ht] at this
    · intro t ht hmem
      rw [hleave] at hmem
      have := (List.mem_filter.mp hmem).2
      simp [ht] at this
    · rw [hleave]
      have hset : alistGet (alistSet w.drafts name (alistDel q uid)) name
          = some (alistDel q uid) := alistGet_alistSet_self _ _ _ q hq
      simp only [hset, Option.getD_some]
      exact alistGet_alistDel_self q uid
  · intro name uid
    rcases hq : alistGet w.drafts name with _ | q
    · simpa [leaveDraft, hq] using hInv
    · rcases hf : q.find? (fun kv => kv.1 == uid) with _ | kv
      · simpa [leaveDraft, hq, hf] using hInv
      · have hleave : (leaveDraft w name uid).1
            = { w with drafts := alistSet w.drafts name (alistDel q uid),
                       armed := cancelIds w.armed kv.2 } := by
          simp [leaveDraft, hq, hf]
        rw [hleave]
        intro kq hkq up hup
        have hband : ∀ kq' : String × DraftState, kq' ∈ w.drafts →
            ∀ up' : String × PlayerInfo, up' ∈ kq'.2 →
            armedCount (cancelIds w.armed kv.2) up'.2 ≤ 1
            ∧ idsBelow up'.2 w.nextTimer := by
          intro kq' hkq' up' hup'
          have := hInv kq' hkq' up' hup'
          exact ⟨le_trans (armedCount_filter_le ..) this.1, this.2⟩
        rcases mem_alistSet hkq with hkq | hkq
        · subst hkq
          have hupq : up ∈ q := mem_alistDel hup
          exact hband (name, q) (alistGet_mem hq) up hupq
        · exact hband kq hkq up hup

/-- Witness for C7 on a concrete world: one queue, one participant with an
armed reminder. -/
theorem timer_exclusivity_witness :
    TimerInv (addPlayerToDraft
      ⟨[("TLA", [("u1", ⟨some 0, none⟩)])], [0], 1, [], []⟩
      "TLA" "u2" (some 4)).1 := by
  have hInv : TimerInv ⟨[("TLA", [("u1", ⟨some 0, none⟩)])], [0], 1, [], []⟩ := by
    intro kq hkq up hup
    simp only [List.mem_singleton] at hkq
    subst hkq
    simp only [List.mem_singleton] at hup
    subst hup
    refine ⟨by decide, ?_, ?_⟩
    · intro t ht
      have ht' : some (0 : Nat) = some t := ht
      cases ht'
      decide
    · intro t ht
      have ht' : (none : Option Nat) = some t := ht
      cases ht'
  exact ((timer_exclusivity _ hInv).1 "TLA" "u2" (some 4)).1

/-! ## C5 / C8: the `!draft` command handler -/

theorem addPlayer_drafts_mem (w : World) (name uid : String)
    (hours : Option Int)
    (hm : ((((alistGet w.drafts name).getD []).find?
      fun kv => kv.1 == uid).isSome) = false) :
    ∀ kq ∈ (addPlayerToDraft w name uid hours).1.drafts,
      kq ∈ w.drafts
      ∨ (kq.1 = name ∧ kq.2.length = getPlayerCount w name + 1) := by
  intro kq hkq
  rcases hq : alistGet w.drafts name with _ | q
  · have hfalse : (alistGet w.drafts name).isSome = false := by rw [hq]; rfl
    rw [show (addPlayerToDraft w name uid hours).1.drafts
        = w.drafts ++ [(name, ((alistGet w.drafts name).getD []) ++
            [(uid, if validHours hours then
                ⟨none, some w.nextTimer⟩ else ⟨some w.nextTimer, none⟩)])] by
      simp only [addPlayerToDraft, hm, Bool.false_eq_true, if_false,
        hfalse]] at hkq
    rcases List.mem_append.mp hkq with hkq | hkq
    · exact Or.inl hkq
    · rcases List.mem_singleton.mp hkq with rfl
      exact Or.inr ⟨rfl, by simp [getPlayerCount]⟩
  · have hsome : (alistGet w.drafts name).isSome = true := by rw [hq]; rfl
    rw [show (addPlayerToDraft w name uid hours).1.drafts
        = alistSet w.drafts name (((alistGet w.drafts name).getD []) ++
            [(uid, if validHours hours then
                ⟨none, some w.nextTimer⟩ else ⟨some w.nextTimer, none⟩)]) by
      simp only [addPlayerToDraft, hm, Bool.false_eq_true, if_false, hsome,
        if_true]] at hkq
    rcases mem_alistSet hkq with hkq | hkq
    · subst hkq
      exact Or.inr ⟨rfl, by simp [getPlayerCount]⟩
    · exact Or.inl hkq

theorem addPlayer_count (w : World) (name uid : String) (hours : Option Int)
    (hm : ((((alistGet w.drafts name).getD []).find?
      fun kv => kv.1 == uid).isSome) = false) :
    getPlayerCount (addPlayerToDraft w name uid hours).1 name
      = getPlayerCount w name + 1 := by
  rcases hq : alistGet w.drafts name with _ | q
  · have hfalse : (alistGet w.drafts name).isSome = false := by rw [hq]; rfl
    have happ := alistGet_append_single w.drafts name
      (((alistGet w.drafts name).getD []) ++
        [(uid, if validHours hours then
            (⟨none, some w.nextTimer⟩ : PlayerInfo)
          else ⟨some w.nextTimer, none⟩)]) hq
    simp only [getPlayerCount]
    rw [show (addPlayerToDraft w name uid hours).1.drafts
        = w.drafts ++ [(name, ((alistGet w.drafts name).getD []) ++
            [(uid, if validHours hours then
                ⟨none, some w.nextTimer⟩ else ⟨some w.nextTimer, none⟩)])] by
      simp only [addPlayerToDraft, hm, Bool.false_eq_true, if_false, hfalse]]
    rw [happ]
    simp
  · have hsome : (alistGet w.drafts name).isSome = true := by rw [hq]; rfl
    have hset := alistGet_alistSet_self w.drafts name
      (((alistGet w.drafts name).getD []) ++
        [(uid, if validHours hours then
            (⟨none, some w.nextTimer⟩ : PlayerInfo)
          else ⟨some w.nextTimer, none⟩)]) q hq
    simp only [getPlayerCount]
    rw [show (addPlayerToDraft w name uid hours).1.drafts
        = alistSet w.drafts name (((alistGet w.drafts name).getD []) ++
            [(uid, if validHours hours then
                ⟨none, some w.nextTimer⟩ else ⟨some w.nextTimer, none⟩)]) by
      simp only [addPlayerToDraft, hm, Bool.false_eq_true, if_false, hsome,
        if_true]]
    rw [hset]
    simp

theorem addPlayer_log_matchups (w : World) (name uid : String)
    (hours : Option Int) :
    (addPlayerToDraft w name uid hours).1.draftLog = w.draftLog
    ∧ (addPlayerToDraft w name uid hours).1.matchups = w.matchups := by
  rw [addPlayerToDraft]
  split
  · exact ⟨rfl, rfl⟩
  · split <;> exact ⟨rfl, rfl⟩

theorem closeDraft_get (w : World) (k : String) :
    alistGet (closeDraft w k).drafts k = none := by
  rw [closeDraft]
  rcases hq : alistGet w.drafts k with _ | q
  · exact hq
  · exact alistGet_alistDel_self w.drafts k

theorem closeDraft_mem (w : World) (k : String) :
    ∀ kq ∈ (closeDraft w k).drafts, kq ∈ w.drafts ∧ kq.1 ≠ k := by
  intro kq hkq
  rw [closeDraft] at hkq
  rcases hq : alistGet w.drafts k with _ | q <;> rw [hq] at hkq
  · refine ⟨hkq, ?_⟩
    intro hk
    subst hk
    rcases Option.map_eq_none'.mp hq with hfind
    have := List.find?_eq_none.mp hfind kq hkq
    simp at this
  · have := List.mem_filter.mp hkq
    exact ⟨this.1, by simpa using this.2⟩

theorem closeDraft_fields (w : World) (k : String) :
    (closeDraft w k).draftLog = w.draftLog
    ∧ (closeDraft w k).matchups = w.matchups := by
  rw [closeDraft]
  rcases alistGet w.drafts k with _ | q <;> exact ⟨rfl, rfl⟩

/-- **C8.** When no live queue carries the name, a `!draft` attempt to create
a queue is rejected (with state untouched) exactly when the name is already
present in the durable draft log; the log check matches the exact stored
(trimmed) name, case-sensitively. -/
theorem podName_uniqueness (w : World) (resolve : String → String)
    (rand : Nat → Nat) (userId name : String) (hours : Option Int)
    (hfresh : alistGet w.drafts name = none) (hname : name ≠ "") :
    (handleDraftCmd w resolve rand userId name hours = (w, .nameTaken)
      ↔ draftNameExistsInLog w.draftLog name = true)
    ∧ (draftNameExistsInLog w.draftLog name = true ↔
        ∃ r ∈ w.draftLog, 2 < r.length ∧ jsTrim (cell r 2) = name) := by
  have hbeq : (name == "") = false := by simpa using hname
  constructor
  · constructor
    · intro hres
      by_contra hno
      have hfalse : draftNameExistsInLog w.draftLog name = false :=
        Bool.not_eq_true _ ▸ eq_false_of_ne_true hno
      rw [handleDraftCmd] at hres
      rw [if_neg (by simp [hbeq])] at hres
      rw [if_neg (by simp [hfresh])] at hres
      rw [if_neg (by simp [hfalse])] at hres
      rcases Bool.eq_false_or_eq_true
          ((getPlayerCount (addPlayerToDraft w name userId hours).1 name == 8))
        with h8 | h8
      · simp only [h8, Bool.false_eq_true, if_false] at hres
        exact absurd (congrArg Prod.snd hres) (by simp)
      · simp only [h8, if_true] at hres
        exact absurd (congrArg Prod.snd hres) (by simp)
    · intro hex
      rw [handleDraftCmd]
      rw [if_neg (by simp [hbeq])]
      rw [if_neg (by simp [hfresh])]
      rw [if_pos (by simp [hfresh, hex])]
  · simp only [draftNameExistsInLog, List.any_eq_true, Bool.and_eq_true,
      beq_iff_eq, decide_eq_true_eq]

/-- Witness for C8: a log holding pod `"CUBE"` blocks re-creating `"CUBE"`. -/
theorem podName_uniqueness_witness :
    handleDraftCmd ⟨[], [], 0, [["N", "1", "CUBE"]], []⟩
        (fun _ => "N") (fun _ => 0) "u" "CUBE" none
      = (⟨[], [], 0, [["N", "1", "CUBE"]], []⟩, .nameTaken) := by
  have h := (podName_uniqueness ⟨[], [], 0, [["N", "1", "CUBE"]], []⟩
    (fun _ => "N") (fun _ => 0) "u" "CUBE" none rfl (by decide)).1
  exact h.mpr (by decide)

/-- **C5.** Under the between-commands size invariant (every queue ≤ 7), a
`!draft` command keeps every queue at ≤ 7 players, reports at most 7 players
when the queue does not fire, fires exactly when the joining user brings an
unblocked queue from 7 to 8 players, and on firing: records the 8-player pod
to the draft log, appends the 4 round-1 rows, deletes the queue, and any later
`!draft` under the same name is rejected by the durable-log uniqueness check —
so materialization happens exactly once. -/
theorem queue_capacity (w : World) (resolve : String → String)
    (rand : Nat → Nat) (userId name : String) (hours : Option Int)
    (hInv : SizeInv w) (htrim : jsTrim name = name) :
    SizeInv (handleDraftCmd w resolve rand userId name hours).1
    ∧ (∀ c, (handleDraftCmd w resolve rand userId name hours).2 = .joined c →
        c ≤ 7)
    ∧ ((handleDraftCmd w resolve rand userId name hours).2 = .fired ↔
        (name ≠ ""
          ∧ (((alistGet w.drafts name).getD []).find?
              fun kv => kv.1 == userId).isSome = false
          ∧ ¬(alistGet w.drafts name = none
                ∧ draftNameExistsInLog w.draftLog name = true)
          ∧ getPlayerCount w name = 7))
    ∧ ((handleDraftCmd w resolve rand userId name hours).2 = .fired →
        alistGet (handleDraftCmd w resolve rand userId name hours).1.drafts name
            = none
        ∧ (∃ ids : List String, ids.length = 8
            ∧ (handleDraftCmd w resolve rand userId name hours).1.draftLog
                = recordDraftToLog w.draftLog resolve name ids
            ∧ (handleDraftCmd w resolve rand userId name hours).1.matchups
                = w.matchups ++ createRound1Rows rand name ids
            ∧ (createRound1Rows rand name ids).length = 4)
        ∧ ∀ uid₂ hours₂,
            handleDraftCmd (handleDraftCmd w resolve rand userId name hours).1
              resolve rand uid₂ name hours₂
            = ((handleDraftCmd w resolve rand userId name hours).1,
                .nameTaken)) := by
  have hcw : getPlayerCount w name ≤ 7 := by
    rcases hq : alistGet w.drafts name with _ | q
    · simp [getPlayerCount, hq]
    · have := hInv (name, q) (alistGet_mem hq)
      simpa [getPlayerCount, hq] using this
  by_cases hname0 : name = ""
  · subst hname0
    have hred : handleDraftCmd w resolve rand userId "" hours = (w, .usage) := by
      rw [handleDraftCmd, if_pos (by simp)]
    rw [hred]
    refine ⟨hInv, ?_, ?_, ?_⟩
    · intro c hc; simp at hc
    · constructor
      · intro h; simp at h
      · rintro ⟨h, _⟩; exact absurd rfl h
    · intro h; simp at h
  · have hbeq : (name == "") = false := by simpa using hname0
    by_cases hmem : (((alistGet w.drafts name).getD []).find?
        fun kv => kv.1 == userId).isSome = true
    · -- already a member: nothing happens
      rcases hq : alistGet w.drafts name with _ | q
      · rw [hq] at hmem; simp at hmem
      · have hmq : (q.find? fun kv => kv.1 == userId).isSome = true := by
          rw [hq] at hmem; simpa using hmem
        have hred : handleDraftCmd w resolve rand userId name hours
            = (w, .alreadyIn) := by
          rw [handleDraftCmd, if_neg (by simp [hbeq]),
            if_pos (by rw [hq]; exact hmq)]
        rw [hred]
        refine ⟨hInv, ?_, ?_, ?_⟩
        · intro c hc; simp at hc
        · constructor
          · intro h; simp at h
          · rintro ⟨_, hm', _⟩
            simp only [Option.getD_some] at hm'
            rw [hmq] at hm'
            cases hm'
        · intro h; simp at h
    · have hm : (((alistGet w.drafts name).getD []).find?
          fun kv => kv.1 == userId).isSome = false :=
        Bool.not_eq_true _ ▸ eq_false_of_ne_true hmem
      have hism : (match alistGet w.drafts name with
          | some q => (q.find? fun kv : String × PlayerInfo =>
              kv.1 == userId).isSome
          | none => false) = false := by
        rcases hq : alistGet w.drafts name with _ | q
        · rfl
        · rw [hq] at hm; simpa using hm
      by_cases hblk : ((alistGet w.drafts name).isNone
          && draftNameExistsInLog w.draftLog name) = true
      · -- blocked by the durable log
        have hred : handleDraftCmd w resolve rand userId name hours
            = (w, .nameTaken) := by
          rw [handleDraftCmd, if_neg (by simp [hbeq]),
            if_neg (by simp [hism]), if_pos hblk]
        rw [hred]
        refine ⟨hInv, ?_, ?_, ?_⟩
        · intro c hc; simp at hc
        · constructor
          · intro h; simp at h
          · rintro ⟨_, _, hnb, _⟩
            simp only [Bool.and_eq_true, Option.isNone_iff_eq_none] at hblk
            exact absurd hblk hnb
        · intro h; simp at h
      · -- the user joins
        have hcount : getPlayerCount
            (addPlayerToDraft w name userId hours).1 name
            = getPlayerCount w name + 1 := addPlayer_count w name userId hours hm
        by_cases h8 : ((getPlayerCount
            (addPlayerToDraft w name userId hours).1 name == 8)) = true
        · -- the queue fires
          have hred : handleDraftCmd w resolve rand userId name hours
              = (closeDraft
                  { (addPlayerToDraft w name userId hours).1 with
                    draftLog := recordDraftToLog
                      (addPlayerToDraft w name userId hours).1.draftLog resolve
                      name
                      (((alistGet (addPlayerToDraft w name userId hours).1.drafts
                        name).getD []).map fun kv => kv.1)
                    matchups := (addPlayerToDraft w name userId hours).1.matchups
                      ++ createRound1Rows rand name
                        (((alistGet (addPlayerToDraft w name userId
                          hours).1.drafts name).getD []).map fun kv => kv.1) }
                  name, .fired) := by
            rw [handleDraftCmd, if_neg (by simp [hbeq]),
              if_neg (by simp [hism]), if_neg (by simp [hblk])]
            simp only [h8, if_true]
          have hids : (((alistGet (addPlayerToDraft w name userId
              hours).1.drafts name).getD []).map
                fun kv : String × PlayerInfo => kv.1).length = 8 := by
            rw [List.length_map]
            have := hcount
            simp only [beq_iff_eq] at h8
            simpa [getPlayerCount] using h8
          refine ⟨?_, ?_, ?_, ?_⟩
          · -- size invariant
            rw [hred]
            intro kq hkq
            have hcm := closeDraft_mem _ name kq hkq
            have hdr : ({ (addPlayerToDraft w name userId hours).1 with
                draftLog := recordDraftToLog
                  (addPlayerToDraft w name userId hours).1.draftLog resolve name
                  (((alistGet (addPlayerToDraft w name userId hours).1.drafts
                    name).getD []).map fun kv => kv.1)
                matchups := (addPlayerToDraft w name userId hours).1.matchups
                  ++ createRound1Rows rand name
                    (((alistGet (addPlayerToDraft w name userId hours).1.drafts
                      name).getD []).map fun kv => kv.1) } : World).drafts
                = (addPlayerToDraft w name userId hours).1.drafts := rfl
            rw [hdr] at hcm
            rcases addPlayer_drafts_mem w name userId hours hm kq hcm.1 with
              hold | hnew
            · exact hInv kq hold
            · exact absurd hnew.1 hcm.2
          · intro c hc; rw [hred] at hc; simp at hc
          · constructor
            · intro _
              refine ⟨hname0, hm, ?_, ?_⟩
              · intro hb
                simp only [Bool.and_eq_true, Option.isNone_iff_eq_none] at hblk
                exact hblk ⟨hb.1, hb.2⟩
              · simp only [beq_iff_eq] at h8
                omega
            · intro _; rw [hred]
          · intro _
            rw [hred]
            refine ⟨?_, ?_, ?_⟩
            · exact closeDraft_get _ name
            · refine ⟨_, hids, ?_, ?_, ?_⟩
              · rw [(closeDraft_fields _ name).1]
                rw [(addPlayer_log_matchups w name userId hours).1]
              · rw [(closeDraft_fields _ name).2]
                rw [(addPlayer_log_matchups w name userId hours).2]
              · simp [createRound1Rows, hids]
            · -- replaying `!draft <name>` is rejected by the log check
              intro uid₂ hours₂
              have hget' := closeDraft_get
                ({ (addPlayerToDraft w name userId hours).1 with
                  draftLog := recordDraftToLog
                    (addPlayerToDraft w name userId hours).1.draftLog resolve
                    name
                    (((alistGet (addPlayerToDraft w name userId hours).1.drafts
                      name).getD []).map fun kv => kv.1)
                  matchups := (addPlayerToDraft w name userId hours).1.matchups
                    ++ createRound1Rows rand name
                      (((alistGet (addPlayerToDraft w name userId
                        hours).1.drafts name).getD []).map fun kv => kv.1) } :
                  World) name
              have hlog' : draftNameExistsInLog
                  (closeDraft
                    { (addPlayerToDraft w name userId hours).1 with
                      draftLog := recordDraftToLog
                        (addPlayerToDraft w name userId hours).1.draftLog
                        resolve name
                        (((alistGet (addPlayerToDraft w name userId
                          hours).1.drafts name).getD []).map fun kv => kv.1)
                      matchups := (addPlayerToDraft w name userId
                          hours).1.matchups
                        ++ createRound1Rows rand name
                          (((alistGet (addPlayerToDraft w name userId
                            hours).1.drafts name).getD []).map fun kv => kv.1) }
                    name).draftLog name = true := by
                rw [(closeDraft_fields _ name).1]
                rcases hl : ((alistGet (addPlayerToDraft w name userId
                    hours).1.drafts name).getD []).map
                      (fun kv : String × PlayerInfo => kv.1) with _ | ⟨i, rest⟩
                · rw [hl] at hids; simp at hids
                · simp only [recordDraftToLog, draftNameExistsInLog,
                    List.any_append, Bool.or_eq_true]
                  refine Or.inr ?_
                  simp [htrim, cell]
              dsimp only at hget' hlog' ⊢
              rw [handleDraftCmd, if_neg (by simp [hbeq]),
                if_neg (by rw [hget']; simp),
                if_pos (by rw [hget', hlog']; rfl)]
        · -- no quorum yet: a plain join
          have hred : handleDraftCmd w resolve rand userId name hours
              = ((addPlayerToDraft w name userId hours).1,
                  .joined (getPlayerCount
                    (addPlayerToDraft w name userId hours).1 name)) := by
            rw [handleDraftCmd, if_neg (by simp [hbeq]),
              if_neg (by simp [hism]), if_neg (by simp [hblk])]
            simp only [h8, Bool.false_eq_true, if_false]
          have hne8 : getPlayerCount (addPlayerToDraft w name userId
              hours).1 name ≠ 8 := by
            simpa using h8
          refine ⟨?_, ?_, ?_, ?_⟩
          · rw [hred]
            intro kq hkq
            rcases addPlayer_drafts_mem w name userId hours hm kq hkq with
              hold | hnew
            · exact hInv kq hold
            · rw [hnew.2]
              omega
          · intro c hc
            rw [hred] at hc
            simp only [DraftCmdOutcome.joined.injEq] at hc
            omega
          · constructor
            · intro h; rw [hred] at h; simp at h
            · rintro ⟨_, _, _, h7⟩
              rw [h7] at hcount
              omega
          · intro h; rw [hred] at h; simp at h

/-- Witness for C5: the 8th join fires the queue. -/
theorem queue_capacity_witness :
    (handleDraftCmd
      ⟨[("CUBE", [("u1", ⟨some 0, none⟩), ("u2", ⟨some 1, none⟩),
        ("u3", ⟨some 2, none⟩), ("u4", ⟨some 3, none⟩), ("u5", ⟨some 4, none⟩),
        ("u6", ⟨some 5, none⟩), ("u7", ⟨some 6, none⟩)])],
        [0, 1, 2, 3, 4, 5, 6], 7, [], []⟩
      (fun u => u) (fun _ => 0) "u8" "CUBE" none).2 = .fired := by
  have h := (queue_capacity
    ⟨[("CUBE", [("u1", ⟨some 0, none⟩), ("u2", ⟨some 1, none⟩),
      ("u3", ⟨some 2, none⟩), ("u4", ⟨some 3, none⟩), ("u5", ⟨some 4, none⟩),
      ("u6", ⟨some 5, none⟩), ("u7", ⟨some 6, none⟩)])],
      [0, 1, 2, 3, 4, 5, 6], 7, [], []⟩
    (fun u => u) (fun _ => 0) "u8" "CUBE" none
    (by intro kq hkq; simp only [List.mem_singleton] at hkq; subst hkq; decide)
    (by decide)).2.2.1
  exact h.mpr ⟨by decide, by decide, by decide, by decide⟩

/-- Witness for C6 at a concrete pod of 8 distinct ids and a concrete random
stream. -/
theorem createRound1_spec_witness :
    createRound1Rows (fun _ => 3) "P" ["a", "b", "c", "d", "e", "f", "g", "h"]
      = [["P", "1", "1", "c", "b", "", ""], ["P", "1", "2", "a", "e", "", ""],
         ["P", "1", "3", "f", "g", "", ""], ["P", "1", "4", "h", "d", "", ""]] := by
  have h := (createRound1_spec (fun _ => 3) "P"
    ["a", "b", "c", "d", "e", "f", "g", "h"]).2 (by decide)
  rw [h.1]
  rfl

/-! ## C1: reportMatch success condition, failure safety, replay safety -/

/-- **C1** `reportMatch` (with `pretend` off) succeeds exactly when the
winner and loser differ and some stored matchup row whose trimmed pod-name
cell equals the queried name has an empty winner cell and exactly the
unordered pair `{winnerId, loserId}` in its player cells; when that
condition fails it returns a typed failure with the sheet state unchanged;
and after a successful report, re-reporting the same pair for that pod
fails with the no-valid-matchup error.  All under `PodWF`, the
well-formedness invariant of engine-produced matchup stores. -/
theorem reportMatch_spec (st : SheetState) (pod w l res : String)
    (hWF : PodWF st.matchups pod) :
    ((reportMatch st pod w l res false).2 = ReportOutcome.ok ↔
      w ≠ l ∧ ∃ v ∈ st.matchups, 7 ≤ v.length ∧ jsTrim (cell v 0) = pod
        ∧ jsTrim (cell v 5) = ""
        ∧ ((jsTrim (cell v 3) = w ∧ jsTrim (cell v 4) = l)
            ∨ (jsTrim (cell v 3) = l ∧ jsTrim (cell v 4) = w)))
    ∧ (¬(w ≠ l ∧ ∃ v ∈ st.matchups, 7 ≤ v.length ∧ jsTrim (cell v 0) = pod
          ∧ jsTrim (cell v 5) = ""
          ∧ ((jsTrim (cell v 3) = w ∧ jsTrim (cell v 4) = l)
              ∨ (jsTrim (cell v 3) = l ∧ jsTrim (cell v 4) = w))) →
        ∃ msg, reportMatch st pod w l res false = (st, ReportOutcome.failure msg))
    ∧ ((reportMatch st pod w l res false).2 = ReportOutcome.ok →
        (reportMatch (reportMatch st pod w l res false).1 pod w l res false).2
          = ReportOutcome.failure noMatchupMsg) := by
  have hmr_of : ∀ v : Row, w ≠ l → rowMatchesReport pod w l v = true →
      7 ≤ v.length ∧ jsTrim (cell v 0) = pod ∧ jsTrim (cell v 5) = ""
      ∧ ((jsTrim (cell v 3) = w ∧ jsTrim (cell v 4) = l)
          ∨ (jsTrim (cell v 3) = l ∧ jsTrim (cell v 4) = w)) := by
    intro v hwl hm
    obtain ⟨a, b, c, d⟩ := (rowMatchesReport_iff pod w l v).mp hm
    exact ⟨a, b, c, unorderedPairEq_elim hwl d⟩
  have hmr_to : ∀ v : Row,
      (7 ≤ v.length ∧ jsTrim (cell v 0) = pod ∧ jsTrim (cell v 5) = ""
        ∧ ((jsTrim (cell v 3) = w ∧ jsTrim (cell v 4) = l)
            ∨ (jsTrim (cell v 3) = l ∧ jsTrim (cell v 4) = w))) →
      rowMatchesReport pod w l v = true := by
    intro v hvv
    obtain ⟨a, b, c, d⟩ := hvv
    refine (rowMatchesReport_iff pod w l v).mpr ⟨a, b, c, ?_⟩
    rcases d with ⟨h3, h4⟩ | ⟨h3, h4⟩
    · rw [h3, h4]; exact unorderedPairEq_left w l
    · rw [h3, h4]; exact unorderedPairEq_right l w
  by_cases hwl : w = l
  · have hrm : reportMatch st pod w l res false = (st, .failure selfReportMsg) := by
      unfold reportMatch
      rw [if_pos (by simp [hwl])]
    refine ⟨?_, ?_, ?_⟩
    · rw [hrm]
      simp [hwl]
    · rintro -
      exact ⟨selfReportMsg, hrm⟩
    · intro hok
      rw [hrm] at hok
      simp at hok
  · have hbeq : (w == l) = false := by simp [hwl]
    by_cases hex : ∃ v ∈ st.matchups, rowMatchesReport pod w l v = true
    · obtain ⟨i, hscan⟩ :
          ∃ i, scanRows (rowMatchesReport pod w l) st.matchups = some i := by
        rcases h : scanRows (rowMatchesReport pod w l) st.matchups with _ | i
        · obtain ⟨v, hv, hmv⟩ := hex
          have hf := (scanRows_eq_none_iff _ _).mp h v hv
          rw [hmv] at hf
          cases hf
        · exact ⟨i, rfl⟩
      obtain ⟨hilt, hmi⟩ := scanRows_eq_some _ _ i hscan
      have hWF2 := report_write_WF st.matchups pod w l res hwl i hilt hWF hmi
      obtain ⟨⟨b, m2⟩, hcnr⟩ := createNextRound_noCrash
        (st.matchups.set i (writeWinner (st.matchups.getD i []) w res)) pod hWF2
      have hrm : reportMatch st pod w l res false
          = (⟨m2, st.matchesLog ++ [[w, l, res, pod, "Yes"]]⟩, .ok) := by
        simp only [reportMatch, hbeq, Bool.false_eq_true, if_false, hscan, hcnr]
      refine ⟨?_, ?_, ?_⟩
      · rw [hrm]
        constructor
        · rintro -
          refine ⟨hwl, st.matchups.getD i [], ?_, hmr_of _ hwl hmi⟩
          rw [List.getD_eq_getElem st.matchups [] hilt]
          exact List.getElem_mem hilt
        · rintro -
          rfl
      · intro hncond
        exfalso
        apply hncond
        refine ⟨hwl, st.matchups.getD i [], ?_, hmr_of _ hwl hmi⟩
        rw [List.getD_eq_getElem st.matchups [] hilt]
        exact List.getElem_mem hilt
      · rintro -
        rw [hrm]
        have hwns := writtenState_noMatch st.matchups pod w l res hwl i hilt hWF hmi
        have hvmem : st.matchups.getD i [] ∈ st.matchups := by
          rw [List.getD_eq_getElem st.matchups [] hilt]
          exact List.getElem_mem hilt
        obtain ⟨p, hparse, hname, hpwin, hcanon, hp1ne, hp2ne, hpairp, hwt,
          hwne, hltr, hlne⟩ :=
          report_row_facts st.matchups pod w l hwl hWF _ hvmem hmi
        obtain ⟨A, B, hst, hmdec⟩ :=
          rows_set_decomp st.matchups pod i hilt p w res hparse (by rw [hname])
        have hpImem : ({ p with winner := jsTrim w, result := jsTrim res } : MatchupRow)
            ∈ matchupRowsFor
              (st.matchups.set i (writeWinner (st.matchups.getD i []) w res)) pod := by
          rw [hmdec]
          exact List.mem_append_right _ (List.mem_cons_self _ _)
        have hw2 : w = ({ p with winner := jsTrim w, result := jsTrim res } : MatchupRow).p1
            ∨ w = ({ p with winner := jsTrim w, result := jsTrim res } : MatchupRow).p2 := by
          rcases hpairp with ⟨ha, -⟩ | ⟨-, hb⟩
          · left; exact ha.symm
          · right; exact hb.symm
        have hl2 : l = ({ p with winner := jsTrim w, result := jsTrim res } : MatchupRow).p1
            ∨ l = ({ p with winner := jsTrim w, result := jsTrim res } : MatchupRow).p2 := by
          rcases hpairp with ⟨-, hb⟩ | ⟨ha, -⟩
          · right; exact hb.symm
          · left; exact ha.symm
        have hfactsM := rows_facts
          (st.matchups.set i (writeWinner (st.matchups.getD i []) w res)) pod hWF2
        have hPWM := rows_pairwise
          (st.matchups.set i (writeWinner (st.matchups.getD i []) w res)) pod hWF2
        rw [createNextRoundIfReady] at hcnr
        by_cases hb1 : (roundCompleteB (roundRows (matchupRowsFor
              (st.matchups.set i (writeWinner (st.matchups.getD i []) w res)) pod) 1)
            && (roundRows (matchupRowsFor
              (st.matchups.set i (writeWinner (st.matchups.getD i []) w res)) pod) 2).isEmpty)
            = true
        · rw [if_pos hb1] at hcnr
          simp only [Bool.false_eq_true, if_false] at hcnr
          obtain ⟨nr, hbnr, heq⟩ := Option.map_eq_some'.mp hcnr
          have hm2eq : m2 = st.matchups.set i
              (writeWinner (st.matchups.getD i []) w res) ++ nr := by
            simpa using (congrArg Prod.snd heq).symm
          subst hm2eq
          have hb1c := hb1
          rw [Bool.and_eq_true] at hb1c
          have hr1c := hb1c.1
          have hr2e : roundRows (matchupRowsFor
              (st.matchups.set i (writeWinner (st.matchups.getD i []) w res)) pod) 2
              = [] := List.isEmpty_iff.mp hb1c.2
          have hpr1 : p.round = 1 := by
            have hc8 := hWF2.2.2.2.2.2.2.2.1
            rcases hcanon with ⟨hr, -⟩ | ⟨hr, -⟩ | ⟨hr, -⟩
            · exact hr
            · exfalso
              have hm2' : ({ p with winner := jsTrim w, result := jsTrim res } : MatchupRow)
                  ∈ roundRows (matchupRowsFor
                    (st.matchups.set i (writeWinner (st.matchups.getD i []) w res)) pod) 2 := by
                simp only [roundRows]
                exact List.mem_filter.mpr ⟨hpImem, by simp [hr]⟩
              rw [hr2e] at hm2'
              exact absurd hm2' (List.not_mem_nil _)
            · exfalso
              have hr3e := hc8 hr2e
              have hm3' : ({ p with winner := jsTrim w, result := jsTrim res } : MatchupRow)
                  ∈ roundRows (matchupRowsFor
                    (st.matchups.set i (writeWinner (st.matchups.getD i []) w res)) pod) 3 := by
                simp only [roundRows]
                exact List.mem_filter.mpr ⟨hpImem, by simp [hr]⟩
              rw [hr3e] at hm3'
              exact absurd hm3' (List.not_mem_nil _)
          have hpIr1 : ({ p with winner := jsTrim w, result := jsTrim res } : MatchupRow)
              ∈ roundRows (matchupRowsFor
                (st.matchups.set i (writeWinner (st.matchups.getD i []) w res)) pod) 1 := by
            simp only [roundRows]
            exact List.mem_filter.mpr ⟨hpImem, by simp [hpr1]⟩
          have hsub1 : (roundRows (matchupRowsFor
              (st.matchups.set i (writeWinner (st.matchups.getD i []) w res)) pod) 1).Sublist
              (matchupRowsFor
                (st.matchups.set i (writeWinner (st.matchups.getD i []) w res)) pod) := by
            simp only [roundRows]
            exact List.filter_sublist _
          have hPW1 : List.Pairwise
              (fun u v => u.matchNum ≠ v.matchNum ∧ slotsDisjoint u v)
              (roundRows (matchupRowsFor
                (st.matchups.set i (writeWinner (st.matchups.getD i []) w res)) pod) 1) := by
            refine (List.Pairwise.sublist hsub1 hPWM).imp_of_mem ?_
            intro a2 b2 ha2 hb2 hab2
            refine ⟨hab2.1, hab2.2 ?_⟩
            have ha1 : a2.round = 1 := by
              simp only [roundRows] at ha2
              simpa using (List.mem_filter.mp ha2).2
            have hb1r : b2.round = 1 := by
              simp only [roundRows] at hb2
              simpa using (List.mem_filter.mp hb2).2
            rw [ha1, hb1r]
          obtain ⟨-, hr1all⟩ := roundCompleteB_facts _ hr1c
          have hmemM : ∀ r ∈ roundRows (matchupRowsFor
              (st.matchups.set i (writeWinner (st.matchups.getD i []) w res)) pod) 1,
              r ∈ matchupRowsFor
                (st.matchups.set i (writeWinner (st.matchups.getD i []) w res)) pod := by
            intro r hrr
            simp only [roundRows] at hrr
            exact (List.mem_filter.mp hrr).1
          have hnone : scanRows (rowMatchesReport pod w l)
              (st.matchups.set i (writeWinner (st.matchups.getD i []) w res) ++ nr)
              = none := by
            rw [scanRows_eq_none_iff]
            intro v hv
            rcases List.mem_append.mp hv with hvm | hvnr
            · exact hwns v hvm
            · exact round2Rows_noMatch pod w l hwl _ _ hPW1
                (fun r hrr => (hfactsM r (hmemM r hrr)).2.2.2.2.2.2.1)
                (fun r hrr => ⟨(hfactsM r (hmemM r hrr)).2.2.2.2.1,
                  (hfactsM r (hmemM r hrr)).2.2.2.2.2.1⟩)
                (fun r hrr => (hfactsM r (hmemM r hrr)).2.2.2.2.2.2.2)
                hr1all hpIr1 hw2 hl2 nr hbnr v hvnr
          simp only [reportMatch, hbeq, Bool.false_eq_true, if_false, hnone]
        · by_cases hb2 : (roundCompleteB (roundRows (matchupRowsFor
                (st.matchups.set i (writeWinner (st.matchups.getD i []) w res)) pod) 2)
              && (roundRows (matchupRowsFor
                (st.matchups.set i (writeWinner (st.matchups.getD i []) w res)) pod) 3).isEmpty)
              = true
          · rw [if_neg hb1, if_pos hb2] at hcnr
            simp only [Bool.false_eq_true, if_false] at hcnr
            obtain ⟨nr, hbnr, heq⟩ := Option.map_eq_some'.mp hcnr
            have hm2eq : m2 = st.matchups.set i
                (writeWinner (st.matchups.getD i []) w res) ++ nr := by
              simpa using (congrArg Prod.snd heq).symm
            subst hm2eq
            have hb2c := hb2
            rw [Bool.and_eq_true] at hb2c
            have hr2c := hb2c.1
            have hr3e : roundRows (matchupRowsFor
                (st.matchups.set i (writeWinner (st.matchups.getD i []) w res)) pod) 3
                = [] := List.isEmpty_iff.mp hb2c.2
            obtain ⟨hr2len, hr2all⟩ := roundCompleteB_facts _ hr2c
            have hpr2 : p.round = 2 := by
              rcases hcanon with ⟨hr, -⟩ | ⟨hr, -⟩ | ⟨hr, -⟩
              · exfalso
                have h9 := hWF.2.2.2.2.2.2.2.2
                have hrM2 : roundRows (matchupRowsFor
                    (st.matchups.set i (writeWinner (st.matchups.getD i []) w res)) pod) 2
                    = roundRows A 2 ++ roundRows B 2 := by
                  rw [hmdec, roundRows_append_cons]
                  rw [show ({ p with winner := jsTrim w, result := jsTrim res }
                    : MatchupRow).round = p.round from rfl, hr]
                  rw [if_neg (by norm_num)]
                have hrst2 : roundRows (matchupRowsFor st.matchups pod) 2
                    = roundRows A 2 ++ roundRows B 2 := by
                  rw [hst, roundRows_append_cons, hr, if_neg (by norm_num)]
                have hne2 : roundRows (matchupRowsFor st.matchups pod) 2 ≠ [] := by
                  rw [hrst2, ← hrM2]
                  intro hnil
                  rw [hnil] at hr2len
                  simp at hr2len
                have hclosed := h9 hne2
                have hpmem1 : p ∈ roundRows (matchupRowsFor st.matchups pod) 1 := by
                  simp only [roundRows]
                  refine List.mem_filter.mpr ⟨?_, by simp [hr]⟩
                  rw [hst]
                  exact List.mem_append_right _ (List.mem_cons_self _ _)
                exact (hclosed p hpmem1) hpwin
              · exact hr
              · exfalso
                have hm3' : ({ p with winner := jsTrim w, result := jsTrim res } : MatchupRow)
                    ∈ roundRows (matchupRowsFor
                      (st.matchups.set i (writeWinner (st.matchups.getD i []) w res)) pod) 3 := by
                  simp only [roundRows]
                  exact List.mem_filter.mpr ⟨hpImem, by simp [hr]⟩
                rw [hr3e] at hm3'
                exact absurd hm3' (List.not_mem_nil _)
            have hpIr2 : ({ p with winner := jsTrim w, result := jsTrim res } : MatchupRow)
                ∈ roundRows (matchupRowsFor
                  (st.matchups.set i (writeWinner (st.matchups.getD i []) w res)) pod) 2 := by
              simp only [roundRows]
              exact List.mem_filter.mpr ⟨hpImem, by simp [hpr2]⟩
            have hsub2 : (roundRows (matchupRowsFor
                (st.matchups.set i (writeWinner (st.matchups.getD i []) w res)) pod) 2).Sublist
                (matchupRowsFor
                  (st.matchups.set i (writeWinner (st.matchups.getD i []) w res)) pod) := by
              simp only [roundRows]
              exact List.filter_sublist _
            have hPW2 : List.Pairwise
                (fun u v => u.matchNum ≠ v.matchNum ∧ slotsDisjoint u v)
                (roundRows (matchupRowsFor
                  (st.matchups.set i (writeWinner (st.matchups.getD i []) w res)) pod) 2) := by
              refine (List.Pairwise.sublist hsub2 hPWM).imp_of_mem ?_
              intro a2 b2 ha2 hb2m hab2
              refine ⟨hab2.1, hab2.2 ?_⟩
              have ha1 : a2.round = 2 := by
                simp only [roundRows] at ha2
                simpa using (List.mem_filter.mp ha2).2
              have hb1r : b2.round = 2 := by
                simp only [roundRows] at hb2m
                simpa using (List.mem_filter.mp hb2m).2
              rw [ha1, hb1r]
            have hmemM2 : ∀ r ∈ roundRows (matchupRowsFor
                (st.matchups.set i (writeWinner (st.matchups.getD i []) w res)) pod) 2,
                r ∈ matchupRowsFor
                  (st.matchups.set i (writeWinner (st.matchups.getD i []) w res)) pod := by
              intro r hrr
              simp only [roundRows] at hrr
              exact (List.mem_filter.mp hrr).1
            have hnone : scanRows (rowMatchesReport pod w l)
                (st.matchups.set i (writeWinner (st.matchups.getD i []) w res) ++ nr)
                = none := by
              rw [scanRows_eq_none_iff]
              intro v hv
              rcases List.mem_append.mp hv with hvm | hvnr
              · exact hwns v hvm
              · exact round3Rows_noMatch pod w l hwl _ _ hPW2
                  (fun r hrr => (hfactsM r (hmemM2 r hrr)).2.2.2.2.2.2.1)
                  (fun r hrr => ⟨(hfactsM r (hmemM2 r hrr)).2.2.2.2.1,
                    (hfactsM r (hmemM2 r hrr)).2.2.2.2.2.1⟩)
                  (fun r hrr => (hfactsM r (hmemM2 r hrr)).2.2.2.2.2.2.2)
                  hr2all hpIr2 hw2 hl2 nr hbnr v hvnr
            simp only [reportMatch, hbeq, Bool.false_eq_true, if_false, hnone]
          · rw [if_neg hb1, if_neg hb2] at hcnr
            have hm2eq : m2 = st.matchups.set i
                (writeWinner (st.matchups.getD i []) w res) := by
              simpa using (congrArg Prod.snd (Option.some.inj hcnr)).symm
            subst hm2eq
            have hnone : scanRows (rowMatchesReport pod w l)
                (st.matchups.set i (writeWinner (st.matchups.getD i []) w res))
                = none := by
              rw [scanRows_eq_none_iff]
              exact hwns
            simp only [reportMatch, hbeq, Bool.false_eq_true, if_false, hnone]
    · have hscan : scanRows (rowMatchesReport pod w l) st.matchups = none := by
        rw [scanRows_eq_none_iff]
        intro v hv
        cases h : rowMatchesReport pod w l v
        · rfl
        · exact absurd ⟨v, hv, h⟩ hex
      have hrm : reportMatch st pod w l res false = (st, .failure noMatchupMsg) := by
        simp only [reportMatch, hbeq, Bool.false_eq_true, if_false, hscan]
      refine ⟨?_, ?_, ?_⟩
      · rw [hrm]
        constructor
        · intro h; simp at h
        · rintro ⟨-, v, hv, hrest⟩
          exact absurd ⟨v, hv, hmr_to v hrest⟩ hex
      · rintro -
        exact ⟨noMatchupMsg, hrm⟩
      · intro hok
        rw [hrm] at hok
        simp at hok

/-- Witness for C1: on a one-row store whose open match pairs A and B,
reporting A over B succeeds. -/
theorem reportMatch_spec_witness :
    (reportMatch ⟨[["CUBE", "1", "1", "A", "B", "", ""]], []⟩
      "CUBE" "A" "B" "2-1" false).2 = ReportOutcome.ok := by
  have hWF : PodWF [["CUBE", "1", "1", "A", "B", "", ""]] "CUBE" := by
    refine ⟨by decide, ?_, by decide, by decide, by decide, by decide,
      by decide, by decide, by decide⟩
    intro v hv hlow
    have hv2 : v = ["CUBE", "1", "1", "A", "B", "", ""] := by simpa using hv
    subst hv2
    refine ⟨{ draftName := "CUBE"
              round := 1
              matchNum := 1
              p1 := "A"
              p2 := "B"
              winner := ""
              result := "" }, by decide, by unfold canonicalNums; decide,
      by decide, by decide⟩
  have h := reportMatch_spec ⟨[["CUBE", "1", "1", "A", "B", "", ""]], []⟩
    "CUBE" "A" "B" "2-1" hWF
  exact h.1.mpr ⟨by decide, ["CUBE", "1", "1", "A", "B", "", ""], by decide,
    by decide, by decide, by decide, Or.inl ⟨by decide, by decide⟩⟩

end Gauntlet
